import Mathlib

set_option maxRecDepth 100000

/-!
Verification development for the hentai-img-crawler repository.

Shallow embedding of the crawler's pure core:
* `config.py` — filename sanitizer (`make_valid_filename` fallback), slug
  hashing (`slug_to_hash`, MD5 of the UTF-8 slug), folder-name builder
  (`make_folder_name`) and the directory-layout constants;
* `utils.py` — completion counting (`count_finished_files`,
  `count_missing_links`), directory lookup (`find_existing_work_dir`,
  `match_old_format_dir`), migration (`rename_old_dir_to_new`) and
  metadata writing (`write_meta_json`), over an explicit filesystem state;
* `main.py` — per-item processing (`process_item`) and list collection
  (`collect_items_for_general_mode` and the special-mode collection loop
  of `crawl`), with the network stages supplied as oracles.

Machine integers are modelled as `Nat` with explicit `% 2 ^ 32` masking;
Python strings are modelled as Lean `String`/`List Char` (both are
sequences of Unicode code points).
-/

/-! ### MD5 over byte lists (`hashlib.md5(...).hexdigest()`)

Python's `hashlib.md5` is embedded directly: padding, little-endian word
decoding, the 64-round compression function, and lowercase hex digest.
All word arithmetic is `Nat` reduced modulo `2 ^ 32`. -/

def M32 : Nat := 4294967296

def add32 (a b : Nat) : Nat := (a + b) % M32

def not32 (a : Nat) : Nat := Nat.xor a 4294967295

def rotl32 (x n : Nat) : Nat := ((x <<< n) ||| (x >>> (32 - n))) % M32

/-- The 64 MD5 round constants `K[i] = floor(2^32 * |sin(i+1)|)`. -/
def md5K : List Nat :=
  [0xd76aa478, 0xe8c7b756, 0x242070db, 0xc1bdceee,
   0xf57c0faf, 0x4787c62a, 0xa8304613, 0xfd469501,
   0x698098d8, 0x8b44f7af, 0xffff5bb1, 0x895cd7be,
   0x6b901122, 0xfd987193, 0xa679438e, 0x49b40821,
   0xf61e2562, 0xc040b340, 0x265e5a51, 0xe9b6c7aa,
   0xd62f105d, 0x02441453, 0xd8a1e681, 0xe7d3fbc8,
   0x21e1cde6, 0xc33707d6, 0xf4d50d87, 0x455a14ed,
   0xa9e3e905, 0xfcefa3f8, 0x676f02d9, 0x8d2a4c8a,
   0xfffa3942, 0x8771f681, 0x6d9d6122, 0xfde5380c,
   0xa4beea44, 0x4bdecfa9, 0xf6bb4b60, 0xbebfbc70,
   0x289b7ec6, 0xeaa127fa, 0xd4ef3085, 0x04881d05,
   0xd9d4d039, 0xe6db99e5, 0x1fa27cf8, 0xc4ac5665,
   0xf4292244, 0x432aff97, 0xab9423a7, 0xfc93a039,
   0x655b59c3, 0x8f0ccc92, 0xffeff47d, 0x85845dd1,
   0x6fa87e4f, 0xfe2ce6e0, 0xa3014314, 0x4e0811a1,
   0xf7537e82, 0xbd3af235, 0x2ad7d2bb, 0xeb86d391]

/-- The 64 per-round left-rotation amounts. -/
def md5S : List Nat :=
  [7, 12, 17, 22, 7, 12, 17, 22, 7, 12, 17, 22, 7, 12, 17, 22,
   5, 9, 14, 20, 5, 9, 14, 20, 5, 9, 14, 20, 5, 9, 14, 20,
   4, 11, 16, 23, 4, 11, 16, 23, 4, 11, 16, 23, 4, 11, 16, 23,
   6, 10, 15, 21, 6, 10, 15, 21, 6, 10, 15, 21, 6, 10, 15, 21]

/-- MD5 round mixing function, selected by the round index. -/
def md5F (i b c d : Nat) : Nat :=
  if i < 16 then (b &&& c) ||| (not32 b &&& d)
  else if i < 32 then (d &&& b) ||| (not32 d &&& c)
  else if i < 48 then Nat.xor (Nat.xor b c) d
  else Nat.xor c (b ||| not32 d)

/-- MD5 message-word index schedule, selected by the round index. -/
def md5G (i : Nat) : Nat :=
  if i < 16 then i
  else if i < 32 then (5 * i + 1) % 16
  else if i < 48 then (3 * i + 5) % 16
  else (7 * i) % 16

/-- Little-endian 32-bit word `j` of a 64-byte chunk. -/
def leWord (chunk : List Nat) (j : Nat) : Nat :=
  chunk.getD (4 * j) 0 + 256 * chunk.getD (4 * j + 1) 0 +
    65536 * chunk.getD (4 * j + 2) 0 + 16777216 * chunk.getD (4 * j + 3) 0

/-- One application of the MD5 compression function to a 16-word chunk. -/
def md5ProcessChunk (st : Nat × Nat × Nat × Nat) (ws : List Nat) :
    Nat × Nat × Nat × Nat :=
  let step := fun (abcd : Nat × Nat × Nat × Nat) (i : Nat) =>
    let f := add32 (add32 (add32 abcd.1 (md5F i abcd.2.1 abcd.2.2.1 abcd.2.2.2))
      (md5K.getD i 0)) (ws.getD (md5G i) 0)
    (abcd.2.2.2, add32 abcd.2.1 (rotl32 f (md5S.getD i 0)), abcd.2.1, abcd.2.2.1)
  let r := (List.range 64).foldl step st
  (add32 st.1 r.1, add32 st.2.1 r.2.1, add32 st.2.2.1 r.2.2.1,
    add32 st.2.2.2 r.2.2.2)

/-- MD5 padding: `0x80`, zeros to 56 mod 64, then the bit length as eight
little-endian bytes. -/
def md5Pad (msg : List Nat) : List Nat :=
  let len := msg.length
  let k := (64 + 56 - (len + 1) % 64) % 64
  let bits := (len * 8) % 2 ^ 64
  msg ++ [0x80] ++ List.replicate k 0 ++
    (List.range 8).map fun i => bits >>> (8 * i) % 256

/-- Fold the compression function over consecutive 64-byte chunks.
The fuel argument starts at the (positive) byte length, which bounds the
number of chunks. -/
def md5Chunks : Nat → Nat × Nat × Nat × Nat → List Nat → Nat × Nat × Nat × Nat
  | 0, st, _ => st
  | _ + 1, st, [] => st
  | fuel + 1, st, bytes =>
      md5Chunks fuel
        (md5ProcessChunk st ((List.range 16).map (leWord (bytes.take 64))))
        (bytes.drop 64)

/-- The four bytes of a 32-bit word, little-endian. -/
def wordLE (w : Nat) : List Nat :=
  [w % 256, w >>> 8 % 256, w >>> 16 % 256, w >>> 24 % 256]

/-- MD5 digest of a byte list: sixteen bytes. -/
def md5Digest (msg : List Nat) : List Nat :=
  let padded := md5Pad msg
  let st := md5Chunks padded.length
    (0x67452301, 0xefcdab89, 0x98badcfe, 0x10325476) padded
  wordLE st.1 ++ wordLE st.2.1 ++ wordLE st.2.2.1 ++ wordLE st.2.2.2

/-- The sixteen lowercase hex characters, `'0'`–`'9'` then `'a'`–`'f'`. -/
def hexChars : List Char :=
  (List.range 10).map (fun i => Char.ofNat (48 + i)) ++
    ((List.range 6).map fun i => Char.ofNat (97 + i))

/-- Lowercase hex digit for a nibble, as produced by `hexdigest()`. -/
def hexDigitChar (n : Nat) : Char := hexChars.getD n 'f'

/-- Two lowercase hex characters per byte (`%02x`). -/
def bytesToHex (bs : List Nat) : List Char :=
  bs.flatMap fun b => [hexDigitChar (b / 16 % 16), hexDigitChar (b % 16)]

/-- UTF-8 encoding of one code point, as by Python `str.encode("utf-8")`. -/
def utf8EncodeOne (c : Char) : List Nat :=
  let n := c.toNat
  if n < 0x80 then [n]
  else if n < 0x800 then [0xC0 ||| n >>> 6, 0x80 ||| (n &&& 0x3F)]
  else if n < 0x10000 then
    [0xE0 ||| n >>> 12, 0x80 ||| (n >>> 6 &&& 0x3F), 0x80 ||| (n &&& 0x3F)]
  else
    [0xF0 ||| n >>> 18, 0x80 ||| (n >>> 12 &&& 0x3F),
     0x80 ||| (n >>> 6 &&& 0x3F), 0x80 ||| (n &&& 0x3F)]

/-- UTF-8 bytes of a string. -/
def strUtf8 (s : String) : List Nat := s.data.flatMap utf8EncodeOne

/-- `config.slug_to_hash`: first 8 hex characters of the MD5 of the UTF-8
encoding of the slug. -/
def slug_to_hash (slug : String) : String :=
  ⟨(bytesToHex (md5Digest (strUtf8 slug))).take 8⟩


/-! ### `config.py`: filename sanitizer and folder-name builder

The repository ships a fallback `make_valid_filename` (the optional external
`mymodule` is not part of the repository, so the fallback in `config.py` is
the authoritative implementation). It strips the string, replaces nine
path-unsafe ASCII characters by full-width look-alikes, removes
non-printable characters, and joins whitespace-separated words with a
single underscore, falling back to `"_"` when nothing remains. -/

/-- Python `str.split(sep)` for a one-character separator, on character
lists: split at every occurrence, keeping empty parts. -/
def splitOnCharAux (sep : Char) : List Char → List Char → List (List Char)
  | [], acc => [acc.reverse]
  | c :: cs, acc =>
      if c = sep then acc.reverse :: splitOnCharAux sep cs []
      else splitOnCharAux sep cs (c :: acc)

/-- Python `str.split(sep)` for a one-character separator. -/
def strSplitOnChar (sep : Char) (s : String) : List String :=
  (splitOnCharAux sep s.data []).map String.mk

/-- Python `str.startswith`. -/
def pyStartsWith (s pre : String) : Bool := pre.data.isPrefixOf s.data

/-- Python `str.endswith`. -/
def pyEndsWith (s suf : String) : Bool := suf.data.isSuffixOf s.data

/-- Python `str.lower` (ASCII case folding). -/
def pyLower (s : String) : String := ⟨s.data.map Char.toLower⟩

/-- Python `str.split()` / `str.strip()` whitespace (Unicode whitespace
code points recognised by CPython). -/
def pyIsSpace (c : Char) : Bool :=
  let n := c.toNat
  (0x09 ≤ n && n ≤ 0x0D) || (0x1C ≤ n && n ≤ 0x1F) || n = 0x20 ||
    n = 0x85 || n = 0xA0 || n = 0x1680 || (0x2000 ≤ n && n ≤ 0x200A) ||
    n = 0x2028 || n = 0x2029 || n = 0x202F || n = 0x205F || n = 0x3000

/-- Python `str.isprintable()`: false for control, separator (other than
U+0020) and format characters. Unassigned/private-use code points are
treated as printable (an approximation of the Unicode category table that
is exact on the character classes handled by the sanitizer). -/
def pyIsPrintable (c : Char) : Bool :=
  let n := c.toNat
  !(n < 0x20 || n = 0x7F || (0x80 ≤ n && n ≤ 0xA0) || n = 0xAD ||
    n = 0x1680 || (0x2000 ≤ n && n ≤ 0x200F) || n = 0x2028 || n = 0x2029 ||
    (0x202A ≤ n && n ≤ 0x202F) || (0x205F ≤ n && n ≤ 0x2064) ||
    (0x2066 ≤ n && n ≤ 0x206F) || n = 0x3000 || n = 0xFEFF ||
    (0xFFF9 ≤ n && n ≤ 0xFFFB))

/-- The replacement table of the fallback sanitizer: path-unsafe ASCII
characters become visually similar full-width substitutes. -/
def replaceChar (c : Char) : Char :=
  if c = '\\' then '⧵'
  else if c = '/' then '／'
  else if c = ':' then '：'
  else if c = '*' then '＊'
  else if c = '?' then '？'
  else if c = '"' then '＂'
  else if c = '<' then '＜'
  else if c = '>' then '＞'
  else if c = '|' then '｜'
  else c

/-- Python `str.strip()` on a character list. -/
def pyStripL (l : List Char) : List Char :=
  ((l.dropWhile pyIsSpace).reverse.dropWhile pyIsSpace).reverse

/-- Python `str.split()` (split on whitespace runs, dropping empty parts),
with an accumulator for the word being read. -/
def pyWordsAux : List Char → List Char → List (List Char)
  | [], acc => if acc = [] then [] else [acc.reverse]
  | c :: cs, acc =>
      if pyIsSpace c then
        if acc = [] then pyWordsAux cs [] else acc.reverse :: pyWordsAux cs []
      else pyWordsAux cs (c :: acc)

/-- `config.make_valid_filename` (fallback implementation) on character
lists: strip, replace unsafe characters, drop non-printables, join the
whitespace-separated words with `'_'`, and fall back to `"_"`. -/
def makeValidFilenameL (l : List Char) : List Char :=
  let s1 := pyStripL l
  let s2 := s1.map replaceChar
  let s3 := s2.filter pyIsPrintable
  let joined := List.intercalate ['_'] (pyWordsAux s3 [])
  if joined = [] then ['_'] else joined

/-- `config.make_valid_filename` (fallback implementation). -/
def make_valid_filename (s : String) : String := ⟨makeValidFilenameL s.data⟩

/-! Configuration constants from `config.py` (the working-directory prefix
`os.getcwd()` is elided, being a common prefix of every path). -/

def LIST_MODE : String := "search_keyword"

def SEARCH_KEYWORD : String := "stripping"

def SEARCH_TAG : String := "anal"

def ROOT_DOWNLOAD_DIR : String := "download"

def DOWNLOAD_SUBDIR_NAME : String :=
  if LIST_MODE = "search_keyword" then "kw_" ++ SEARCH_KEYWORD
  else if LIST_MODE = "search_tag" then "tag_" ++ SEARCH_TAG
  else LIST_MODE

/-- `os.path.join` for the POSIX paths built by the crawler. -/
def pjoin (a b : String) : String := a ++ "/" ++ b

def BASE_DOWNLOAD_DIR : String := pjoin ROOT_DOWNLOAD_DIR DOWNLOAD_SUBDIR_NAME

def MISSING_LINKS_FILENAME : String := "文件不存在的链接.txt"

def RENAME_DRY_RUN : Bool := false

/-- `config.make_folder_name`: canonical folder name, cleaned truncated
title, and 8-character hash. Non-special: `date丨title丨total丨hash`;
special (no date): `hash丨title丨total`. -/
def make_folder_name (date title : String) (total : Nat) (slug : String)
    (is_special : Bool) : String × String × String :=
  let title_truncated : String := ⟨title.data.take 100⟩
  let title_truncated_clean := make_valid_filename title_truncated
  let date_clean := make_valid_filename date
  let hash8 := slug_to_hash slug
  if is_special then
    (hash8 ++ "丨" ++ title_truncated_clean ++ "丨" ++ Nat.repr total,
      title_truncated_clean, hash8)
  else
    (date_clean ++ "丨" ++ title_truncated_clean ++ "丨" ++ Nat.repr total
      ++ "丨" ++ hash8, title_truncated_clean, hash8)


/-! ### Filesystem model

The crawler's directory logic is state over a POSIX filesystem. The model
records, per absolute path: directory listings (`dirs`), regular-file
sizes (`files`), text-file lines (`texts`), and parsed `meta.json`
contents (`metas`), each as an association list keyed by path. -/

/-- The parsed contents of a `meta.json` file. Every field is optional
because migration reads the file as a JSON object and probes keys. -/
structure Meta where
  slug : Option String := none
  hash : Option String := none
  title : Option String := none
  title_truncated : Option String := none
  date : Option String := none
  total : Option Nat := none
  file_type : Option String := none
  thumb_url : Option String := none
  list_source : Option String := none
  download_time : Option String := none
  source : Option String := none
  deriving DecidableEq, Repr

/-- Filesystem state. -/
structure FS where
  dirs : List (String × List String)
  files : List (String × Nat)
  texts : List (String × List String)
  metas : List (String × Meta)
  deriving DecidableEq, Repr

/-- First-match association-list lookup. -/
def alookup {α : Type} (l : List (String × α)) (k : String) : Option α :=
  (l.find? fun kv => kv.1 == k).map fun kv => kv.2

def FS.isdir (fs : FS) (p : String) : Bool := (alookup fs.dirs p).isSome

/-- `os.listdir`, empty for a non-directory (never reached that way). -/
def FS.listdir (fs : FS) (p : String) : List String :=
  (alookup fs.dirs p).getD []

def FS.fileSize (fs : FS) (p : String) : Option Nat := alookup fs.files p

def FS.isfile (fs : FS) (p : String) : Bool := (alookup fs.files p).isSome

def FS.flines (fs : FS) (p : String) : List String :=
  (alookup fs.texts p).getD []

def FS.metaAt (fs : FS) (p : String) : Option Meta := alookup fs.metas p

/-! ### `utils.py`: completion counting -/

/-- `utils.count_missing_links`: non-blank lines of the dead-link record
(`文件不存在的链接.txt`) in `save_dir`; 0 when the record is absent. -/
def count_missing_links (fs : FS) (save_dir : String) : Nat :=
  let path := pjoin save_dir MISSING_LINKS_FILENAME
  if fs.isfile path then
    (fs.flines path).countP fun line => !(pyStripL line.data).isEmpty
  else 0

/-- The explicitly excluded file names of `count_finished_files`. -/
def excludedNames : List String :=
  [MISSING_LINKS_FILENAME, "meta.json", ".DS_Store"]

/-- The excluded temporary suffixes of `count_finished_files`. -/
def excludedSuffixes : List String := [".part", ".tmp", ".partial", ".download"]

/-- The per-entry test of `count_finished_files`: not an excluded name,
not hidden, not temp-suffixed (the name lowercased as by `str.lower`,
ASCII case folding), and a regular file of positive size. -/
def finishedFileTest (fs : FS) (save_dir name : String) : Bool :=
  !(excludedNames.contains name) && !(pyStartsWith name ".") &&
    !(excludedSuffixes.any fun suf => pyEndsWith (pyLower name) suf) &&
    0 < (fs.fileSize (pjoin save_dir name)).getD 0

/-- `utils.count_finished_files`: finished media files in the immediate
contents of `save_dir`; 0 for a non-directory. -/
def count_finished_files (fs : FS) (save_dir : String) : Nat :=
  match alookup fs.dirs save_dir with
  | none => 0
  | some names => names.countP (finishedFileTest fs save_dir)

/-! ### `utils.py`: directory lookup -/

/-- The per-folder test of `find_existing_work_dir`: a 3-segment folder
matches either as legacy (`date丨title丨total`, title compared on its
first 100 code points) or as dateless-new (`hash丨title丨total`); a
4-segment folder matches only by exact name. The legacy comparison runs
first, as in the source. -/
def fewdCheckFolder (folder fpath date_new title_new total_new hash_new
    folder_name : String) : Option String :=
  let parts_old := strSplitOnChar '丨' folder
  if parts_old.length = 3 then
    let date_old := parts_old.getD 0 ""
    let title_old := parts_old.getD 1 ""
    let total_old := parts_old.getD 2 ""
    if date_old == date_new && title_old.take 100 == title_new &&
        total_old == total_new then some fpath
    else if date_old == hash_new && title_old == title_new &&
        total_old == total_new then some fpath
    else none
  else if parts_old.length = 4 then
    if folder == folder_name then some fpath else none
  else none

/-- `utils.find_existing_work_dir`: search every subdirectory of the
download root for a directory matching `folder_name` (new format, legacy
format, or exact name for non-standard segment counts). -/
def find_existing_work_dir (fs : FS) (folder_name : String) : Option String :=
  if !fs.isdir ROOT_DOWNLOAD_DIR then none
  else
    let parts := strSplitOnChar '丨' folder_name
    if parts.length = 4 || parts.length = 3 then
      let date_new := if parts.length = 4 then parts.getD 0 "" else ""
      let title_new := parts.getD 1 ""
      let total_new := parts.getD 2 ""
      let hash_new := if parts.length = 4 then parts.getD 3 ""
        else parts.getD 0 ""
      (fs.listdir ROOT_DOWNLOAD_DIR).findSome? fun sub =>
        let sub_path := pjoin ROOT_DOWNLOAD_DIR sub
        if !fs.isdir sub_path then none
        else (fs.listdir sub_path).findSome? fun folder =>
          let fpath := pjoin sub_path folder
          if !fs.isdir fpath then none
          else fewdCheckFolder folder fpath date_new title_new total_new
            hash_new folder_name
    else
      (fs.listdir ROOT_DOWNLOAD_DIR).findSome? fun sub =>
        let sub_path := pjoin ROOT_DOWNLOAD_DIR sub
        if !fs.isdir sub_path then none
        else
          let candidate := pjoin sub_path folder_name
          if fs.isdir candidate then some candidate else none

/-- `utils.match_old_format_dir`: search every subdirectory of the
download root for a legacy (`date丨title丨total`) directory matching the
canonical `folder_name`; no filesystem mutation. -/
def match_old_format_dir (fs : FS) (folder_name : String) : Option String :=
  if !fs.isdir ROOT_DOWNLOAD_DIR then none
  else
    let parts := strSplitOnChar '丨' folder_name
    if parts.length = 4 || parts.length = 3 then
      let date_new := if parts.length = 4 then parts.getD 0 "" else ""
      let title_new := parts.getD 1 ""
      let total_new := parts.getD 2 ""
      (fs.listdir ROOT_DOWNLOAD_DIR).findSome? fun sub =>
        let sub_path := pjoin ROOT_DOWNLOAD_DIR sub
        if !fs.isdir sub_path then none
        else (fs.listdir sub_path).findSome? fun folder =>
          let fpath := pjoin sub_path folder
          if !fs.isdir fpath then none
          else
            let parts_old := strSplitOnChar '丨' folder
            if parts_old.length = 3 then
              if parts_old.getD 0 "" == date_new &&
                  (parts_old.getD 1 "").take 100 == title_new &&
                  parts_old.getD 2 "" == total_new then some fpath
              else none
            else none
    else none

/-! ### `utils.py`: migration (`rename_old_dir_to_new`) -/

/-- Does `p` lie at or below `root`? -/
def underPath (root p : String) : Bool :=
  p == root || (root.data ++ ['/']).isPrefixOf p.data

/-- Path relocation performed by `os.rename`/`shutil.move`: paths at or
below `old` are re-rooted at `new`; all other paths are unchanged. -/
def remapPath (old new p : String) : String :=
  if p == old then new
  else if (old.data ++ ['/']).isPrefixOf p.data then
    ⟨new.data ++ '/' :: p.data.drop (old.data.length + 1)⟩
  else p

def basenameOf (p : String) : String :=
  (strSplitOnChar '/' p).getLastD ""

def dirnameOf (p : String) : String :=
  String.intercalate "/" (strSplitOnChar '/' p).dropLast

/-- Listing adjustment of a directory entry when `old` moves to `new`:
`old`'s name leaves its parent's listing and `new`'s name enters its
parent's listing. -/
def moveListing (old new : String) (kv : String × List String) :
    List String :=
  let v := if kv.1 == dirnameOf old then
    kv.2.filter fun n => !(n == basenameOf old)
  else kv.2
  if kv.1 == dirnameOf new then basenameOf new :: v else v

/-- Move the subtree rooted at `old` to `new` (the caller has checked that
`old` is a directory and nothing exists at `new`): every path at or below
`old` is re-rooted and the parent listings are adjusted. -/
def FS.move (fs : FS) (old new : String) : FS where
  dirs := fs.dirs.map fun kv =>
    (remapPath old new kv.1, moveListing old new kv)
  files := fs.files.map fun kv => (remapPath old new kv.1, kv.2)
  texts := fs.texts.map fun kv => (remapPath old new kv.1, kv.2)
  metas := fs.metas.map fun kv => (remapPath old new kv.1, kv.2)

/-- `os.makedirs(p, exist_ok=True)` for the one level actually created by
the crawler (every ancestor of `p` already exists in the modelled runs):
no-op when `p` is a directory, otherwise an empty listing appears at `p`
and `p`'s name enters its parent's listing. -/
def FS.makedirs (fs : FS) (p : String) : FS :=
  if fs.isdir p then fs
  else
    { fs with
      dirs := (p, []) :: fs.dirs.map fun kv =>
        if kv.1 == dirnameOf p then (kv.1, basenameOf p :: kv.2) else kv }

/-- Replace (or create) the parsed metadata record at path `p`. -/
def FS.setMeta (fs : FS) (p : String) (m : Meta) : FS :=
  { fs with metas := (p, m) :: fs.metas.filter fun kv => !(kv.1 == p) }

/-- Create or overwrite a regular file of the given size at `p`,
registering its name in the parent listing when absent. -/
def FS.writeFile (fs : FS) (p : String) (size : Nat) : FS :=
  { fs with
    files := (p, size) :: fs.files.filter fun kv => !(kv.1 == p),
    dirs := fs.dirs.map fun kv =>
      if kv.1 == dirnameOf p && !kv.2.contains (basenameOf p) then
        (kv.1, basenameOf p :: kv.2)
      else kv }

/-- The in-place `meta.json` edit of a successful migration: set `hash`,
backfill `title_truncated` from `title` when absent, refresh
`download_time` to the current time. -/
def Meta.migrationUpdate (m : Meta) (hash8 now : String) : Meta :=
  let m1 := { m with hash := some hash8 }
  let m2 := if m1.title_truncated = none && m1.title.isSome then
    { m1 with title_truncated := some ((m1.title.getD "").take 100) }
  else m1
  { m2 with download_time := some now }

/-- `utils.rename_old_dir_to_new`. `moveOk` stands for the success of the
underlying `os.rename`/`shutil.move` call; `now` is the current time
rendered as by `datetime.now().strftime`. Returns the resolved new path
(or `none` on failure) and the updated filesystem. -/
def rename_old_dir_to_new (fs : FS) (old_dir new_parent_dir new_folder_name :
    String) (dry_run moveOk : Bool) (now : String) : Option String × FS :=
  if !fs.isdir old_dir then (none, fs)
  else
    let fs1 := fs.makedirs new_parent_dir
    let new_dir := pjoin new_parent_dir new_folder_name
    if fs1.isdir new_dir then (some new_dir, fs1)
    else if dry_run then (some new_dir, fs1)
    else if !moveOk then (none, fs1)
    else
      let fs2 := fs1.move old_dir new_dir
      let meta_path := pjoin new_dir "meta.json"
      if fs2.isfile meta_path then
        let parts := strSplitOnChar '丨' new_folder_name
        if parts.length ≥ 4 && !(parts.getLastD "").isEmpty then
          let m := (fs2.metaAt meta_path).getD {}
          (some new_dir,
            fs2.setMeta meta_path (m.migrationUpdate (parts.getLastD "") now))
        else (some new_dir, fs2)
      else (some new_dir, fs2)

/-- `utils.write_meta_json`: create the directory if needed and write the
full metadata record (a non-empty JSON file). -/
def write_meta_json (fs : FS) (save_dir slug hash8 title title_truncated
    date : String) (total : Nat) (file_type thumb_url list_source source_url
    now : String) : FS :=
  let m : Meta :=
    { slug := some slug, hash := some hash8, title := some title,
      title_truncated := some title_truncated, date := some date,
      total := some total, file_type := some file_type,
      thumb_url := some thumb_url, list_source := some list_source,
      download_time := some now, source := some source_url }
  let path := pjoin save_dir "meta.json"
  ((fs.makedirs save_dir).setMeta path m).writeFile path 1

/-! ### `main.py`: per-item processing

The network stages of `process_item` (detail-page fetch, story-viewer
parse, slug extraction) are supplied as parameters: `storyFound`,
`imgCount`, `hasVideo`, `parsedTotal`, `slug`. The external download
collaborator (`mymodule.download_file`, absent from the repository) is an
oracle on the filesystem. The observable effects are returned as a trace
of actions. -/

structure Item where
  detail_url : String
  title : String
  date : String
  thumb_url : String
  deriving DecidableEq, Repr

/-- Observable effects of `process_item`. -/
inductive Act where
  | migrateAttempt (old_dir new_parent new_folder : String)
      (result : Option String)
  | downloadImages (dir : String)
  | downloadVideo (dir : String)
  | writeMeta (dir : String)
  deriving DecidableEq, Repr

/-- Steps 7–11 of `main.process_item`, entered once the working directory
is chosen: skip (with completion-triggered legacy rename) when the
completion count reaches the expected total, otherwise download, re-check
completion, migrate a legacy-named directory, and write `meta.json`. -/
def processDownloadPhase (fs : FS) (save_dir folder_name : String)
    (expected_total imgCount : Nat) (hasVideo : Bool)
    (slug hash8 title_truncated : String) (it : Item) (moveOk : Bool)
    (now : String) (dlImgs dlVid : FS → FS) : List Act × FS :=
  let finished_total :=
    count_finished_files fs save_dir + count_missing_links fs save_dir
  if expected_total ≤ finished_total then
    let base_name := basenameOf save_dir
    if base_name.data.contains '丨' then
      if (strSplitOnChar '丨' base_name).length = 3 then
        let r := rename_old_dir_to_new fs save_dir BASE_DOWNLOAD_DIR
          folder_name RENAME_DRY_RUN moveOk now
        ([.migrateAttempt save_dir BASE_DOWNLOAD_DIR folder_name r.1], r.2)
      else ([], fs)
    else ([], fs)
  else
    let acts1 : List Act :=
      if imgCount ≠ 0 then [.downloadImages save_dir] else []
    let fsA := if imgCount ≠ 0 then dlImgs fs else fs
    let acts2 : List Act := if hasVideo then [.downloadVideo save_dir] else []
    let fsB := if hasVideo then dlVid fsA else fsA
    let finished_after :=
      count_finished_files fsB save_dir + count_missing_links fsB save_dir
    let step10 : String × FS × List Act :=
      if expected_total ≤ finished_after then
        if (strSplitOnChar '丨' (basenameOf save_dir)).length = 3 then
          let r := rename_old_dir_to_new fsB save_dir BASE_DOWNLOAD_DIR
            folder_name RENAME_DRY_RUN moveOk now
          match r.1 with
          | some new_dir =>
              (new_dir, r.2,
                [.migrateAttempt save_dir BASE_DOWNLOAD_DIR folder_name
                  (some new_dir)])
          | none =>
              (save_dir, r.2,
                [.migrateAttempt save_dir BASE_DOWNLOAD_DIR folder_name none])
        else (save_dir, fsB, [])
      else (save_dir, fsB, [])
    let file_type := if hasVideo then "video" else "image"
    let fsC := write_meta_json step10.2.1 step10.1 slug hash8 it.title
      title_truncated it.date expected_total file_type it.thumb_url
      LIST_MODE it.detail_url now
    (acts1 ++ acts2 ++ step10.2.2 ++ [.writeMeta step10.1], fsC)

/-- `main.process_item`: choose the working directory (new-format reuse,
completed-legacy migration + skip, in-progress legacy reuse, or a fresh
canonical directory) then run the completion/download/migrate/metadata
phase. -/
def process_item (fs : FS) (it : Item) (storyFound : Bool)
    (imgCount : Nat) (hasVideo : Bool) (parsedTotal : Nat) (slug : String)
    (moveOk : Bool) (now : String) (dlImgs dlVid : FS → FS) :
    List Act × FS :=
  if it.detail_url == "" then ([], fs)
  else if !storyFound then ([], fs)
  else
    let expected_total :=
      if 0 < parsedTotal then parsedTotal
      else imgCount + if hasVideo then 1 else 0
    if expected_total = 0 then ([], fs)
    else
      let fr := make_folder_name it.date it.title expected_total slug
        (it.date == "")
      let folder_name := fr.1
      match find_existing_work_dir fs folder_name with
      | some existing_dir =>
          processDownloadPhase fs existing_dir folder_name expected_total
            imgCount hasVideo slug fr.2.2 fr.2.1 it moveOk now dlImgs dlVid
      | none =>
        match match_old_format_dir fs folder_name with
        | some old_dir =>
            let finished_total_old := count_finished_files fs old_dir +
              count_missing_links fs old_dir
            if expected_total ≤ finished_total_old then
              let r := rename_old_dir_to_new fs old_dir BASE_DOWNLOAD_DIR
                folder_name RENAME_DRY_RUN moveOk now
              match r.1 with
              | some new_dir =>
                  ([.migrateAttempt old_dir BASE_DOWNLOAD_DIR folder_name
                    (some new_dir)], r.2)
              | none =>
                  let rest := processDownloadPhase r.2
                    (pjoin BASE_DOWNLOAD_DIR folder_name) folder_name
                    expected_total imgCount hasVideo slug fr.2.2 fr.2.1 it
                    moveOk now dlImgs dlVid
                  (.migrateAttempt old_dir BASE_DOWNLOAD_DIR folder_name none
                    :: rest.1, rest.2)
            else
              processDownloadPhase fs old_dir folder_name expected_total
                imgCount hasVideo slug fr.2.2 fr.2.1 it moveOk now dlImgs dlVid
        | none =>
            processDownloadPhase fs (pjoin BASE_DOWNLOAD_DIR folder_name)
              folder_name expected_total imgCount hasVideo slug fr.2.2 fr.2.1
              it moveOk now dlImgs dlVid

/-! ### `main.py`: list collection

`fetchParse` composes `safe_request` with `parse_list_page` (and, in
special mode, `get_next_page_number` on the same response): `none` means
the page fetch failed after retries. Each collector returns the collected
items and the trace of pages for which a fetch was attempted. -/

/-- Python `range(start_page, 0, -1)`. -/
def descRange (start_page : Nat) : List Nat :=
  (List.range start_page).reverse.map fun i => i + 1

/-- Loop body of `main.collect_items_for_general_mode` over the remaining
pages: a failed fetch skips the page and continues; page 1 reuses the
already-fetched first-page response when `start_page == last_page`. -/
def collectGeneralGo (fetchParse : Nat → Option (List Item))
    (start_page last_page : Nat) (first_page_items : Option (List Item)) :
    List Nat → List Item × List Nat
  | [] => ([], [])
  | page :: rest =>
      let r := collectGeneralGo fetchParse start_page last_page
        first_page_items rest
      if page = 1 && first_page_items.isSome && start_page == last_page then
        ((first_page_items.getD []).reverse ++ r.1, r.2)
      else
        match fetchParse page with
        | none => (r.1, page :: r.2)
        | some page_items => (page_items.reverse ++ r.1, page :: r.2)

/-- `main.collect_items_for_general_mode` (bounded discovery,
collect-then-process). -/
def collect_items_for_general_mode (fetchParse : Nat → Option (List Item))
    (start_page last_page : Nat) (first_page_items : Option (List Item)) :
    List Item × List Nat :=
  collectGeneralGo fetchParse start_page last_page first_page_items
    (descRange start_page)

/-- The special-mode collection loop of `main.crawl` under `CRAWL_MODE = 1`
(unbounded discovery, collect-then-process): follow `nextpostslink` from
page to page; a fetch failure stops the collection. The fuel bounds the
unbounded `while True` loop. -/
def crawlSpecialCollect (fetchParse : Nat → Option (List Item × Option Nat)) :
    Nat → Nat → List Item × List Nat
  | 0, _ => ([], [])
  | fuel + 1, page =>
      match fetchParse page with
      | none => ([], [page])
      | some pr =>
          match pr.2 with
          | none => (pr.1.reverse, [page])
          | some next_page =>
              let r := crawlSpecialCollect fetchParse fuel next_page
              (pr.1.reverse ++ r.1, page :: r.2)

/-! ### Specification-side definitions and model helpers for the theorems -/

/-- The completion count as worded by the specification: regular non-empty
files in the immediate contents (excluding the dead-link record, the
metadata record, hidden dot-files and temporary-suffix files) plus the
non-blank lines of the dead-link record when present; 0 for an absent
directory. Stated independently of `count_finished_files` +
`count_missing_links` to be compared with them. -/
def specCompletionCount (fs : FS) (d : String) : Nat :=
  (match alookup fs.dirs d with
   | none => 0
   | some names =>
       names.countP fun name =>
         !(name == MISSING_LINKS_FILENAME) && !(name == "meta.json") &&
           !(pyStartsWith name ".") &&
           !(excludedSuffixes.any fun suf => pyEndsWith (pyLower name) suf) &&
           0 < (fs.fileSize (pjoin d name)).getD 0) +
  (if fs.isfile (pjoin d MISSING_LINKS_FILENAME) then
    (fs.flines (pjoin d MISSING_LINKS_FILENAME)).countP fun line =>
      !(pyStripL line.data).isEmpty
  else 0)

/-- Create a fresh file inside directory `d`: the name enters `d`'s
listing and the path carries the given size and text lines. -/
def FS.addFile (fs : FS) (d name : String) (size : Nat) (ls : List String) :
    FS :=
  { fs with
    dirs := fs.dirs.map fun kv =>
      if kv.1 == d then (kv.1, name :: kv.2) else kv,
    files := (pjoin d name, size) :: fs.files,
    texts := (pjoin d name, ls) :: fs.texts }

/-- Filesystem sanity: every registered file path has a registered
directory at each of its slash-separated ancestors. -/
def FS.wf (fs : FS) : Prop :=
  ∀ kv ∈ fs.files, ∀ i < kv.1.data.length,
    kv.1.data.getD i ' ' = '/' → fs.isdir ⟨kv.1.data.take i⟩ = true

/-- No recorded path lies at or below `root` (a fresh move destination). -/
def FS.noEntriesUnder (fs : FS) (root : String) : Prop :=
  (∀ kv ∈ fs.dirs, underPath root kv.1 = false) ∧
    (∀ kv ∈ fs.files, underPath root kv.1 = false) ∧
    (∀ kv ∈ fs.texts, underPath root kv.1 = false) ∧
    (∀ kv ∈ fs.metas, underPath root kv.1 = false)

/-- Characters that survive the sanitizer unchanged: non-whitespace,
printable, and fixed by the replacement table. -/
def sanitizedChar (c : Char) : Prop :=
  pyIsSpace c = false ∧ pyIsPrintable c = true ∧ replaceChar c = c

/-! Concrete fixtures used by witnesses and counterexamples. -/

/-- A legacy directory `2013_01_01丨T丨1` holding one finished image. -/
def fsLegacyDone : FS :=
  { dirs := [("download", ["kw_old"]),
             ("download/kw_old", ["2013_01_01丨T丨1"]),
             ("download/kw_old/2013_01_01丨T丨1", ["img1.jpg"])],
    files := [("download/kw_old/2013_01_01丨T丨1/img1.jpg", 5)],
    texts := [], metas := [] }

/-- The same legacy directory with no finished file yet. -/
def fsLegacyPartial : FS :=
  { dirs := [("download", ["kw_old"]),
             ("download/kw_old", ["2013_01_01丨T丨1"]),
             ("download/kw_old/2013_01_01丨T丨1", [])],
    files := [], texts := [], metas := [] }

/-- The list item whose identity matches the legacy fixtures. -/
def itemT : Item :=
  { detail_url := "https://hentai-img.com/image/t-slug/", title := "T",
    date := "2013_01_01", thumb_url := "" }

/-- A legacy directory next to an existing (empty) base download dir. -/
def fsMig : FS :=
  { dirs := [("download", ["kw_stripping", "kw_old"]),
             ("download/kw_stripping", []),
             ("download/kw_old", ["2013_01_01丨T丨1"]),
             ("download/kw_old/2013_01_01丨T丨1", [])],
    files := [], texts := [], metas := [] }

/-- Like `fsMig`, with a `meta.json` (no `hash`, stale `download_time`)
inside the legacy directory. -/
def fsMig2 : FS :=
  { dirs := [("download", ["kw_stripping", "kw_old"]),
             ("download/kw_stripping", []),
             ("download/kw_old", ["2013_01_01丨T丨1"]),
             ("download/kw_old/2013_01_01丨T丨1", ["meta.json"])],
    files := [("download/kw_old/2013_01_01丨T丨1/meta.json", 9)],
    texts := [],
    metas := [("download/kw_old/2013_01_01丨T丨1/meta.json",
      { title := some "T", download_time := some "2001-01-01 00:00:00" })] }

def itemA : Item :=
  { detail_url := "https://hentai-img.com/image/a/", title := "A",
    date := "", thumb_url := "" }

def itemB : Item :=
  { detail_url := "https://hentai-img.com/image/b/", title := "B",
    date := "", thumb_url := "" }

/-- Special-mode page oracle: page 1 links to page 2, fetching page 2
fails, page 3 (which page 2 would have linked to) is fetchable. -/
def specialPagesFailAt2 : Nat → Option (List Item × Option Nat) := fun p =>
  if p = 1 then some ([itemA], some 2)
  else if p = 3 then some ([itemB], none)
  else none

/-- The same pages with page 2 fetchable (empty, linking to page 3). -/
def specialPagesAllOk : Nat → Option (List Item × Option Nat) := fun p =>
  if p = 1 then some ([itemA], some 2)
  else if p = 2 then some ([], some 3)
  else if p = 3 then some ([itemB], none)
  else none

/-! ### Lemmas about the sanitizer -/

theorem replaceChar_fix (c : Char) (h : replaceChar c = c) :
    replaceChar (replaceChar c) = replaceChar c := by
  simp only [h]

theorem replaceChar_of_ne (c : Char) (h1 : c ≠ '\\') (h2 : c ≠ '/')
    (h3 : c ≠ ':') (h4 : c ≠ '*') (h5 : c ≠ '?') (h6 : c ≠ '"')
    (h7 : c ≠ '<') (h8 : c ≠ '>') (h9 : c ≠ '|') : replaceChar c = c := by
  unfold replaceChar
  split_ifs <;> simp_all

theorem replaceChar_idem (c : Char) :
    replaceChar (replaceChar c) = replaceChar c := by
  rcases em (c = '\\') with rfl | h1
  · decide
  rcases em (c = '/') with rfl | h2
  · decide
  rcases em (c = ':') with rfl | h3
  · decide
  rcases em (c = '*') with rfl | h4
  · decide
  rcases em (c = '?') with rfl | h5
  · decide
  rcases em (c = '"') with rfl | h6
  · decide
  rcases em (c = '<') with rfl | h7
  · decide
  rcases em (c = '>') with rfl | h8
  · decide
  rcases em (c = '|') with rfl | h9
  · decide
  exact replaceChar_fix c (replaceChar_of_ne c h1 h2 h3 h4 h5 h6 h7 h8 h9)

theorem replaceChar_avoid (c : Char) :
    replaceChar c ≠ '/' ∧ replaceChar c ≠ '\\' ∧
      (replaceChar c = '丨' → c = '丨') := by
  rcases em (c = '\\') with rfl | h1
  · decide
  rcases em (c = '/') with rfl | h2
  · decide
  rcases em (c = ':') with rfl | h3
  · decide
  rcases em (c = '*') with rfl | h4
  · decide
  rcases em (c = '?') with rfl | h5
  · decide
  rcases em (c = '"') with rfl | h6
  · decide
  rcases em (c = '<') with rfl | h7
  · decide
  rcases em (c = '>') with rfl | h8
  · decide
  rcases em (c = '|') with rfl | h9
  · decide
  rw [replaceChar_of_ne c h1 h2 h3 h4 h5 h6 h7 h8 h9]
  exact ⟨h2, h1, fun h => h⟩

theorem mem_intersperse_cases {α : Type} (sep a : α) :
    ∀ l : List α, a ∈ l.intersperse sep → a = sep ∨ a ∈ l
  | [] => by simp [List.intersperse]
  | [x] => by
      intro h
      simp [List.intersperse] at h
      simp [h]
  | x :: y :: t => by
      intro h
      simp only [List.intersperse, List.mem_cons] at h
      rcases h with rfl | rfl | h
      · right; simp
      · left; rfl
      · rcases mem_intersperse_cases sep a (y :: t) h with h' | h'
        · left; exact h'
        · right; simp [List.mem_cons] at h' ⊢; tauto

theorem pyWordsAux_chars : ∀ (l acc : List Char) (w : List Char)
    (c : Char), w ∈ pyWordsAux l acc → c ∈ w →
    (c ∈ l ∧ pyIsSpace c = false) ∨ c ∈ acc
  | [], acc, w, c => by
      intro hw hc
      unfold pyWordsAux at hw
      split at hw
      · simp at hw
      · simp at hw
        subst hw
        right
        simpa using hc
  | a :: t, acc, w, c => by
      intro hw hc
      unfold pyWordsAux at hw
      split at hw
      case isTrue hsp =>
        split at hw
        case isTrue =>
          rcases pyWordsAux_chars t [] w c hw hc with ⟨h1, h2⟩ | h
          · exact Or.inl ⟨List.mem_cons_of_mem _ h1, h2⟩
          · simp at h
        case isFalse =>
          rcases List.mem_cons.mp hw with rfl | hw'
          · right; simpa using hc
          · rcases pyWordsAux_chars t [] w c hw' hc with ⟨h1, h2⟩ | h
            · exact Or.inl ⟨List.mem_cons_of_mem _ h1, h2⟩
            · simp at h
      case isFalse hsp =>
        rcases pyWordsAux_chars t (a :: acc) w c hw hc with ⟨h1, h2⟩ | h
        · exact Or.inl ⟨List.mem_cons_of_mem _ h1, h2⟩
        · rcases List.mem_cons.mp h with rfl | h'
          · exact Or.inl ⟨List.mem_cons_self _ _, by simpa using hsp⟩
          · exact Or.inr h'

theorem pyWordsAux_nospace : ∀ (l acc : List Char),
    (∀ c ∈ l, pyIsSpace c = false) →
    pyWordsAux l acc =
      if acc.reverse ++ l = [] then [] else [acc.reverse ++ l]
  | [], acc => by
      intro _
      unfold pyWordsAux
      rcases em (acc = []) with rfl | h
      · simp
      · simp [h]
  | a :: t, acc => by
      intro h
      unfold pyWordsAux
      rw [if_neg (by simpa using h a (List.mem_cons_self a t))]
      rw [pyWordsAux_nospace t (a :: acc)
        (fun c hc => h c (List.mem_cons_of_mem _ hc))]
      simp

theorem pyStripL_subset (l : List Char) : ∀ c ∈ pyStripL l, c ∈ l := by
  intro c hc
  unfold pyStripL at hc
  rw [List.mem_reverse] at hc
  have h1 := (List.dropWhile_sublist pyIsSpace
    (l := (l.dropWhile pyIsSpace).reverse)).subset hc
  rw [List.mem_reverse] at h1
  exact (List.dropWhile_sublist pyIsSpace (l := l)).subset h1

theorem mvfL_chars (l : List Char) (c : Char)
    (hc : c ∈ makeValidFilenameL l) :
    c = '_' ∨ ∃ c₀, c₀ ∈ l ∧ c = replaceChar c₀ := by
  simp only [makeValidFilenameL] at hc
  split at hc
  · left; simpa using hc
  · rcases List.mem_flatten.mp (by simpa [List.intercalate] using hc)
      with ⟨w, hw, hcw⟩
    rcases mem_intersperse_cases ['_'] w _ hw with rfl | hw'
    · left; simpa using hcw
    · rcases pyWordsAux_chars _ [] w c hw' hcw with ⟨h1, _⟩ | h
      · have h2 := List.mem_of_mem_filter h1
        rcases List.mem_map.mp h2 with ⟨c₀, hc₀, rfl⟩
        exact Or.inr ⟨c₀, pyStripL_subset l c₀ hc₀, rfl⟩
      · simp at h

theorem mvfL_sanitized (l : List Char) (c : Char)
    (hc : c ∈ makeValidFilenameL l) : sanitizedChar c := by
  simp only [makeValidFilenameL] at hc
  split at hc
  · have : c = '_' := by simpa using hc
    subst this
    exact ⟨by decide, by decide, by decide⟩
  · rcases List.mem_flatten.mp (by simpa [List.intercalate] using hc)
      with ⟨w, hw, hcw⟩
    rcases mem_intersperse_cases ['_'] w _ hw with rfl | hw'
    · have : c = '_' := by simpa using hcw
      subst this
      exact ⟨by decide, by decide, by decide⟩
    · rcases pyWordsAux_chars _ [] w c hw' hcw with ⟨h1, h2⟩ | h
      · refine ⟨h2, List.of_mem_filter h1, ?_⟩
        rcases List.mem_map.mp (List.mem_of_mem_filter h1) with ⟨c₀, _, rfl⟩
        exact replaceChar_idem c₀
      · simp at h

theorem mvfL_ne_nil (l : List Char) : makeValidFilenameL l ≠ [] := by
  simp only [makeValidFilenameL]
  split
  · simp
  · assumption

theorem dropWhile_eq_self_of_false {p : Char → Bool} {l : List Char}
    (h : ∀ c ∈ l, p c = false) : l.dropWhile p = l := by
  cases l with
  | nil => rfl
  | cons a t => simp [List.dropWhile_cons, h a (List.mem_cons_self a t)]

theorem mvfL_fixed (m : List Char) (h1 : ∀ c ∈ m, sanitizedChar c)
    (h2 : m ≠ []) : makeValidFilenameL m = m := by
  have hsp : ∀ c ∈ m, pyIsSpace c = false := fun c hc => (h1 c hc).1
  have hstrip : pyStripL m = m := by
    have hsp' : ∀ c ∈ m.reverse, pyIsSpace c = false := by
      intro c hc
      exact hsp c (List.mem_reverse.mp hc)
    unfold pyStripL
    rw [dropWhile_eq_self_of_false hsp, dropWhile_eq_self_of_false hsp',
      List.reverse_reverse]
  have hmap : m.map replaceChar = m := by
    rw [List.map_congr_left (fun c hc => (h1 c hc).2.2)]
    exact List.map_id m
  have hfil : m.filter pyIsPrintable = m :=
    List.filter_eq_self.mpr fun c hc => (h1 c hc).2.1
  simp only [makeValidFilenameL]
  rw [hstrip, hmap, hfil, pyWordsAux_nospace m [] hsp]
  simp only [List.reverse_nil, List.nil_append]
  rw [if_neg h2]
  simp [List.intercalate, h2]

/-- C10 (implicit): the filename sanitizer is idempotent — re-sanitizing an
already-sanitized string never changes it. -/
theorem C10_make_valid_filename_idempotent (s : String) :
    make_valid_filename (make_valid_filename s) = make_valid_filename s := by
  unfold make_valid_filename
  exact congrArg String.mk
    (mvfL_fixed _ (mvfL_sanitized s.data) (mvfL_ne_nil s.data))

/-! ### Lemmas about hex digests and digit strings -/

theorem hexDigitChar_mem (n : Nat) : hexDigitChar n ∈ hexChars := by
  unfold hexDigitChar
  by_cases h : n < hexChars.length
  · rw [List.getD_eq_getElem _ _ h]
    exact List.getElem_mem h
  · rw [List.getD_eq_default _ _ (by omega)]
    decide

theorem bytesToHex_length (bs : List Nat) :
    (bytesToHex bs).length = 2 * bs.length := by
  induction bs with
  | nil => rfl
  | cons b t ih =>
      simp only [bytesToHex, List.flatMap_cons] at ih ⊢
      simp only [List.length_append, List.length_cons, List.length_nil, ih]
      omega

theorem bytesToHex_mem (bs : List Nat) (c : Char) (h : c ∈ bytesToHex bs) :
    c ∈ hexChars := by
  rcases List.mem_flatMap.mp h with ⟨b, _, hc⟩
  rcases List.mem_cons.mp hc with rfl | hc'
  · exact hexDigitChar_mem _
  · rcases List.mem_cons.mp hc' with rfl | hc''
    · exact hexDigitChar_mem _
    · simp at hc''

theorem md5Digest_length (msg : List Nat) : (md5Digest msg).length = 16 := by
  simp [md5Digest, wordLE]

theorem slug_to_hash_length (s : String) : (slug_to_hash s).length = 8 := by
  show ((bytesToHex (md5Digest (strUtf8 s))).take 8).length = 8
  rw [List.length_take, bytesToHex_length, md5Digest_length]
  decide

theorem slug_to_hash_hex_mem (s : String) :
    ∀ c ∈ (slug_to_hash s).data, c ∈ hexChars := by
  intro c hc
  exact bytesToHex_mem _ _ (List.take_subset 8 _ hc)

theorem hex_char_avoid (c : Char) (h : c ∈ hexChars) :
    c ≠ '/' ∧ c ≠ '\\' ∧ c ≠ '丨' := by
  fin_cases h <;> exact ⟨by decide, by decide, by decide⟩

theorem digitChar_isDigit (m : Nat) (h : m < 10) :
    (Nat.digitChar m).isDigit = true := by
  interval_cases m <;> decide

theorem toDigitsCore_digits :
    ∀ (f n : Nat) (acc : List Char), (∀ c ∈ acc, c.isDigit = true) →
      ∀ c ∈ Nat.toDigitsCore 10 f n acc, c.isDigit = true := by
  intro f
  induction f with
  | zero =>
      intro n acc hacc c hc
      exact hacc c (by simpa [Nat.toDigitsCore] using hc)
  | succ f ih =>
      intro n acc hacc c hc
      rw [Nat.toDigitsCore] at hc
      by_cases h : n / 10 = 0
      · rw [if_pos h] at hc
        rcases List.mem_cons.mp hc with rfl | hc'
        · exact digitChar_isDigit _ (Nat.mod_lt n (by omega))
        · exact hacc c hc'
      · rw [if_neg h] at hc
        refine ih (n / 10) _ ?_ c hc
        intro c' hc'
        rcases List.mem_cons.mp hc' with rfl | hc''
        · exact digitChar_isDigit _ (Nat.mod_lt n (by omega))
        · exact hacc c' hc''

theorem repr_digits (n : Nat) : ∀ c ∈ (Nat.repr n).data, c.isDigit = true := by
  intro c hc
  have hrepr : (Nat.repr n).data = Nat.toDigits 10 n := rfl
  rw [hrepr] at hc
  unfold Nat.toDigits at hc
  exact toDigitsCore_digits _ _ [] (by simp) c hc

theorem isDigit_avoid (c : Char) (h : c.isDigit = true) :
    c ≠ '/' ∧ c ≠ '\\' ∧ c ≠ '丨' := by
  refine ⟨?_, ?_, ?_⟩ <;> rintro rfl <;> exact absurd h (by decide)

theorem mvf_char_cases (s : String) (c : Char)
    (hc : c ∈ (make_valid_filename s).data) :
    c = '_' ∨ ∃ c₀, c₀ ∈ s.data ∧ c = replaceChar c₀ :=
  mvfL_chars s.data c hc

theorem mvf_no_slash (s : String) :
    ∀ c ∈ (make_valid_filename s).data, c ≠ '/' ∧ c ≠ '\\' := by
  intro c hc
  rcases mvf_char_cases s c hc with rfl | ⟨c₀, _, rfl⟩
  · exact ⟨by decide, by decide⟩
  · exact ⟨(replaceChar_avoid c₀).1, (replaceChar_avoid c₀).2.1⟩

theorem mvf_no_sep (s : String) (h : '丨' ∉ s.data) :
    '丨' ∉ (make_valid_filename s).data := by
  intro hmem
  rcases mvf_char_cases s '丨' hmem with h' | ⟨c₀, hc₀, he⟩
  · exact absurd h' (by decide)
  · exact h (((replaceChar_avoid c₀).2.2 he.symm) ▸ hc₀)

/-! ### C8, C5, C6: identity builder -/

/-- C8: `slug_to_hash` is deterministic (it is a pure function of the slug
alone), returns exactly 8 characters, all lowercase hexadecimal — the
first 8 hex digits of the MD5 of the UTF-8 slug by construction — and the
hash component of `make_folder_name` equals `slug_to_hash slug` for every
title, date, total and specialness flag. -/
theorem C8_content_hash_shape (slug date title : String) (total : Nat)
    (sp : Bool) :
    (slug_to_hash slug).length = 8 ∧
    (∀ c ∈ (slug_to_hash slug).data, c ∈ hexChars) ∧
    (make_folder_name date title total slug sp).2.2 = slug_to_hash slug := by
  refine ⟨slug_to_hash_length slug, slug_to_hash_hex_mem slug, ?_⟩
  cases sp <;> rfl

theorem C8_content_hash_shape_witness :
    (slug_to_hash "ai-photo-22-ai-generated-2").length = 8 ∧ 'd' ∈ hexChars :=
  ⟨(C8_content_hash_shape "ai-photo-22-ai-generated-2" "" "" 0 false).1,
    (C8_content_hash_shape "ai-photo-22-ai-generated-2" "" "" 0 false).2.1 'd'
      (by decide)⟩

/-- C5 counterexample: on the claimed scenario the builder does not return
the claimed tuple — the sanitized date is not `2013_04_15` (the fallback
sanitizer replaces `/` with the full-width `／`, not `_`). -/
theorem C5_counterexample :
    make_folder_name "2013/04/15" "A B  C" 3 "ai-photo-22-ai-generated-2"
      false ≠
    ("2013_04_15丨A_B_C丨3丨" ++ slug_to_hash "ai-photo-22-ai-generated-2",
      "A_B_C", slug_to_hash "ai-photo-22-ai-generated-2") := by
  decide

/-- C5 amended: on slug `ai-photo-22-ai-generated-2`, title `A B  C`,
date `2013/04/15`, total 3, non-special, the builder returns
hash8 = `dc5aeb57` (the first 8 hex characters of the MD5 of the slug,
by definition of `slug_to_hash`), title `A_B_C`, sanitized date
`2013／04／15` (both slashes replaced by full-width `／`, no nested path),
and folder `2013／04／15丨A_B_C丨3丨dc5aeb57`. -/
theorem C5_amended_identity_scenario :
    make_folder_name "2013/04/15" "A B  C" 3 "ai-photo-22-ai-generated-2"
      false =
      ("2013／04／15丨A_B_C丨3丨dc5aeb57", "A_B_C", "dc5aeb57") ∧
    make_valid_filename "2013/04/15" = "2013／04／15" ∧
    slug_to_hash "ai-photo-22-ai-generated-2" = "dc5aeb57" :=
  ⟨by decide, by decide, by decide⟩

/-- C6 counterexample: when the title itself contains the separator `丨`,
the non-special canonical name splits into 5 segments, not 4. -/
theorem C6_counterexample :
    (strSplitOnChar '丨' (make_folder_name "2013_01_01" "a丨b" 1 "s"
      false).1).length = 5 ∧
    ¬(strSplitOnChar '丨' (make_folder_name "2013_01_01" "a丨b" 1 "s"
      false).1).length = 4 :=
  ⟨by decide, by decide⟩

theorem make_folder_name_false (date title : String) (total : Nat)
    (slug : String) :
    (make_folder_name date title total slug false).1 =
      make_valid_filename date ++ "丨" ++
        make_valid_filename ⟨title.data.take 100⟩ ++ "丨" ++ Nat.repr total ++
        "丨" ++ slug_to_hash slug := rfl

theorem make_folder_name_true (date title : String) (total : Nat)
    (slug : String) :
    (make_folder_name date title total slug true).1 =
      slug_to_hash slug ++ "丨" ++
        make_valid_filename ⟨title.data.take 100⟩ ++ "丨" ++
        Nat.repr total := rfl

/-- C6 amended: the canonical folder name never contains a path separator
(`/` or `\`); and provided the date and title do not themselves contain
the full-width separator `丨`, the name contains exactly 3 separator
occurrences in the non-special case (4 segments) and exactly 2 in the
special case (3 segments). -/
theorem C6_amended_folder_shape (date title : String) (total : Nat)
    (slug : String) (sp : Bool) (hd : '丨' ∉ date.data)
    (ht : '丨' ∉ title.data) :
    (∀ c ∈ (make_folder_name date title total slug sp).1.data,
      c ≠ '/' ∧ c ≠ '\\') ∧
    (make_folder_name date title total slug sp).1.data.count '丨' =
      (if sp then 2 else 3) := by
  have hsepd : ("丨" : String).data = ['丨'] := rfl
  have htt : '丨' ∉ ((⟨title.data.take 100⟩ : String) : String).data := by
    intro h
    exact ht (List.take_subset 100 title.data h)
  have hB := mvf_no_sep (⟨title.data.take 100⟩ : String) htt
  have hD := mvf_no_sep date hd
  have hT : '丨' ∉ (Nat.repr total).data := by
    intro h
    exact (isDigit_avoid _ (repr_digits total _ h)).2.2 rfl
  have hH : '丨' ∉ (slug_to_hash slug).data := by
    intro h
    exact (hex_char_avoid _ (slug_to_hash_hex_mem slug _ h)).2.2 rfl
  have hreprSafe : ∀ c ∈ (Nat.repr total).data, c ≠ '/' ∧ c ≠ '\\' :=
    fun c hc => ⟨(isDigit_avoid c (repr_digits total c hc)).1,
      (isDigit_avoid c (repr_digits total c hc)).2.1⟩
  have hhashSafe : ∀ c ∈ (slug_to_hash slug).data, c ≠ '/' ∧ c ≠ '\\' :=
    fun c hc => ⟨(hex_char_avoid c (slug_to_hash_hex_mem slug c hc)).1,
      (hex_char_avoid c (slug_to_hash_hex_mem slug c hc)).2.1⟩
  constructor
  · intro c hc
    cases sp with
    | false =>
        rw [make_folder_name_false] at hc
        simp only [String.data_append, List.mem_append, hsepd,
          List.mem_singleton] at hc
        rcases hc with (((((hc | rfl) | hc) | rfl) | hc) | rfl) | hc
        · exact mvf_no_slash date c hc
        · exact ⟨by decide, by decide⟩
        · exact mvf_no_slash _ c hc
        · exact ⟨by decide, by decide⟩
        · exact hreprSafe c hc
        · exact ⟨by decide, by decide⟩
        · exact hhashSafe c hc
    | true =>
        rw [make_folder_name_true] at hc
        simp only [String.data_append, List.mem_append, hsepd,
          List.mem_singleton] at hc
        rcases hc with (((hc | rfl) | hc) | rfl) | hc
        · exact hhashSafe c hc
        · exact ⟨by decide, by decide⟩
        · exact mvf_no_slash _ c hc
        · exact ⟨by decide, by decide⟩
        · exact hreprSafe c hc
  · cases sp with
    | false =>
        rw [make_folder_name_false]
        simp only [String.data_append, List.count_append, hsepd]
        rw [List.count_eq_zero.mpr hD, List.count_eq_zero.mpr hB,
          List.count_eq_zero.mpr hT, List.count_eq_zero.mpr hH]
        decide
    | true =>
        rw [make_folder_name_true]
        simp only [String.data_append, List.count_append, hsepd]
        rw [List.count_eq_zero.mpr hB, List.count_eq_zero.mpr hT,
          List.count_eq_zero.mpr hH]
        decide

/-! ### C4: completion counting -/

theorem contains_excluded (name : String) :
    excludedNames.contains name =
      (name == MISSING_LINKS_FILENAME || name == "meta.json" ||
        name == ".DS_Store") := by
  simp only [excludedNames, List.contains_cons, List.contains_nil,
    Bool.or_false, Bool.or_assoc]

theorem finishedFileTest_eq_spec (fs : FS) (d name : String) :
    finishedFileTest fs d name =
      (!(name == MISSING_LINKS_FILENAME) && !(name == "meta.json") &&
        !(pyStartsWith name ".") &&
        !(excludedSuffixes.any fun suf => pyEndsWith (pyLower name) suf) &&
        0 < (fs.fileSize (pjoin d name)).getD 0) := by
  unfold finishedFileTest
  rw [contains_excluded]
  rcases em (name = ".DS_Store") with rfl | h
  · have h1 : pyStartsWith ".DS_Store" "." = true := by decide
    simp [h1]
  · have hds : (name == ".DS_Store") = false := beq_eq_false_iff_ne.mpr h
    simp [hds, Bool.and_assoc]

theorem pjoin_data (a b : String) :
    (pjoin a b).data = a.data ++ '/' :: b.data := by
  have h : ("/" : String).data = ['/'] := rfl
  simp [pjoin, String.data_append, h]

theorem pjoin_right_inj (d a b : String) (h : pjoin d a = pjoin d b) :
    a = b := by
  have h1 : (pjoin d a).data = (pjoin d b).data := by rw [h]
  rw [pjoin_data, pjoin_data] at h1
  have h2 : a.data = b.data := by
    have h3 := List.append_cancel_left h1
    simpa using h3
  exact congrArg String.mk h2

theorem alookup_cons {α : Type} (k : String) (v : α) (l : List (String × α))
    (q : String) :
    alookup ((k, v) :: l) q = if k == q then some v else alookup l q := by
  unfold alookup
  rw [List.find?_cons]
  cases h : (k == q) <;> simp [h]

theorem alookup_adjust_eq {α : Type} (f : α → α) (d : String)
    (l : List (String × α)) :
    alookup (l.map fun kv => if kv.1 == d then (kv.1, f kv.2) else kv) d =
      (alookup l d).map f := by
  induction l with
  | nil => simp [alookup]
  | cons a t ih =>
      rcases a with ⟨k, v⟩
      rcases em (k = d) with rfl | hkd
      · simp only [List.map_cons, beq_self_eq_true, if_true]
        rw [alookup_cons, alookup_cons]
        simp
      · have hk : (k == d) = false := beq_eq_false_iff_ne.mpr hkd
        simp only [List.map_cons, hk, Bool.false_eq_true, if_false]
        rw [alookup_cons, alookup_cons, hk]
        simp only [Bool.false_eq_true, if_false]
        exact ih

theorem alookup_adjust_ne {α : Type} (f : α → α) (d : String)
    (l : List (String × α)) (q : String) (hq : q ≠ d) :
    alookup (l.map fun kv => if kv.1 == d then (kv.1, f kv.2) else kv) q =
      alookup l q := by
  induction l with
  | nil => simp [alookup]
  | cons a t ih =>
      rcases a with ⟨k, v⟩
      rcases em (k = d) with rfl | hkd
      · have hkq : (k == q) = false :=
          beq_eq_false_iff_ne.mpr fun h => hq h.symm
        simp only [List.map_cons, beq_self_eq_true, if_true]
        rw [alookup_cons, alookup_cons, hkq]
        simp only [Bool.false_eq_true, if_false]
        exact ih
      · have hk : (k == d) = false := beq_eq_false_iff_ne.mpr hkd
        simp only [List.map_cons, hk, Bool.false_eq_true, if_false]
        rw [alookup_cons, alookup_cons]
        rcases em (k = q) with rfl | hkq
        · simp
        · have hkq' : (k == q) = false := beq_eq_false_iff_ne.mpr hkq
          rw [hkq']
          simp only [Bool.false_eq_true, if_false]
          exact ih

theorem isfile_elim (fs : FS) (p : String) (h : fs.isfile p = true) :
    ∃ kv ∈ fs.files, kv.1 = p := by
  unfold FS.isfile alookup at h
  cases hfind : List.find? (fun kv => kv.1 == p) fs.files with
  | none => rw [hfind] at h; simp at h
  | some kv =>
      exact ⟨kv, List.mem_of_find?_eq_some hfind,
        by simpa using List.find?_some hfind⟩

theorem count_finished_files_eq (fs : FS) (d : String) :
    count_finished_files fs d =
      match alookup fs.dirs d with
      | none => 0
      | some names => names.countP (finishedFileTest fs d) := rfl

theorem count_missing_links_eq (fs : FS) (d : String) :
    count_missing_links fs d =
      if fs.isfile (pjoin d MISSING_LINKS_FILENAME) then
        (fs.flines (pjoin d MISSING_LINKS_FILENAME)).countP fun line =>
          !(pyStripL line.data).isEmpty
      else 0 := rfl

theorem isfile_eq (fs : FS) (p : String) :
    fs.isfile p = (alookup fs.files p).isSome := rfl

theorem flines_eq (fs : FS) (p : String) :
    fs.flines p = (alookup fs.texts p).getD [] := rfl

/-- C4: for every filesystem and directory, the code's completion count
(`count_finished_files + count_missing_links`) equals the
specification's formula; on a well-formed filesystem a non-existent
directory yields count 0; and adding a fresh zero-byte file never
changes the count. -/
theorem C4_completion_count (fs : FS) (d : String) :
    (count_finished_files fs d + count_missing_links fs d =
      specCompletionCount fs d) ∧
    (fs.wf → fs.isdir d = false →
      count_finished_files fs d + count_missing_links fs d = 0) ∧
    (∀ name, name ∉ fs.listdir d → fs.isfile (pjoin d name) = false →
      count_finished_files (fs.addFile d name 0 []) d +
          count_missing_links (fs.addFile d name 0 []) d =
        count_finished_files fs d + count_missing_links fs d) := by
  refine ⟨?_, ?_, ?_⟩
  · rw [count_finished_files_eq]
    unfold specCompletionCount
    cases halk : alookup fs.dirs d with
    | none => rfl
    | some names =>
        dsimp only
        rw [List.countP_congr fun a _ => by rw [finishedFileTest_eq_spec]]
        rfl
  · intro hwf hnd
    have h1 : alookup fs.dirs d = none := by
      cases halk : alookup fs.dirs d with
      | none => rfl
      | some names => rw [FS.isdir, halk] at hnd; simp at hnd
    have h2 : fs.isfile (pjoin d MISSING_LINKS_FILENAME) = false := by
      by_contra hc
      rw [Bool.not_eq_false] at hc
      rcases isfile_elim fs _ hc with ⟨kv, hmem, hkey⟩
      have hlen : d.data.length < kv.1.data.length := by
        rw [hkey, pjoin_data]
        simp
      have hget : kv.1.data.getD d.data.length ' ' = '/' := by
        rw [hkey, pjoin_data, List.getD_eq_getElem?_getD,
          List.getElem?_append_right (Nat.le_refl _)]
        simp
      have htake : kv.1.data.take d.data.length = d.data := by
        rw [hkey, pjoin_data]
        exact List.take_left ..
      have hdir := hwf kv hmem d.data.length hlen hget
      rw [htake] at hdir
      have hdt : fs.isdir d = true := hdir
      rw [hdt] at hnd
      exact absurd hnd (by simp)
    rw [count_finished_files_eq, count_missing_links_eq, h1, h2]
    simp
  · intro name hn hf
    have hdirs : alookup (fs.addFile d name 0 []).dirs d =
        (alookup fs.dirs d).map fun v => name :: v := by
      unfold FS.addFile
      exact alookup_adjust_eq _ _ _
    have hfiles : ∀ q, alookup (fs.addFile d name 0 []).files q =
        (if pjoin d name == q then some 0 else alookup fs.files q) := by
      intro q
      unfold FS.addFile
      exact alookup_cons ..
    have htexts : ∀ q, alookup (fs.addFile d name 0 []).texts q =
        (if pjoin d name == q then some [] else alookup fs.texts q) := by
      intro q
      unfold FS.addFile
      exact alookup_cons ..
    have hml : count_missing_links (fs.addFile d name 0 []) d =
        count_missing_links fs d := by
      rw [count_missing_links_eq, count_missing_links_eq]
      rw [isfile_eq, isfile_eq, flines_eq, flines_eq, hfiles, htexts]
      rcases em (name = MISSING_LINKS_FILENAME) with rfl | hnm
      · rw [if_pos (beq_self_eq_true _), if_pos (beq_self_eq_true _)]
        rw [isfile_eq] at hf
        have hnone :
            alookup fs.files (pjoin d MISSING_LINKS_FILENAME) = none := by
          cases hml2 : alookup fs.files (pjoin d MISSING_LINKS_FILENAME) with
          | none => rfl
          | some v => rw [hml2] at hf; simp at hf
        rw [hnone]
        simp
      · have hne : (pjoin d name == pjoin d MISSING_LINKS_FILENAME) = false :=
          beq_eq_false_iff_ne.mpr fun h => hnm (pjoin_right_inj d _ _ h)
        rw [hne]
        simp
    rw [hml]
    have hff : count_finished_files (fs.addFile d name 0 []) d =
        count_finished_files fs d := by
      rw [count_finished_files_eq, count_finished_files_eq, hdirs]
      cases halk : alookup fs.dirs d with
      | none => rfl
      | some names =>
          simp only [Option.map_some']
          rw [List.countP_cons_of_neg]
          · refine List.countP_congr fun a ha => ?_
            unfold finishedFileTest FS.fileSize
            rw [hfiles]
            have hane : (pjoin d name == pjoin d a) = false := by
              refine beq_eq_false_iff_ne.mpr fun h => ?_
              have haa : name = a := pjoin_right_inj d _ _ h
              subst haa
              exact hn (by rw [FS.listdir, halk]; exact ha)
            rw [hane]
            simp
          · unfold finishedFileTest FS.fileSize
            rw [hfiles, if_pos (beq_self_eq_true _)]
            simp
    rw [hff]

/-! ### Lemmas about path remapping and migration -/

theorem pjoin_ne_base (a x : String) : pjoin a x ≠ a := by
  intro h
  have h1 : (pjoin a x).data.length = a.data.length := by rw [h]
  rw [pjoin_data] at h1
  simp at h1

theorem remapPath_old (old new : String) : remapPath old new old = new := by
  unfold remapPath
  simp

theorem remapPath_pjoin (old new x : String) :
    remapPath old new (pjoin old x) = pjoin new x := by
  unfold remapPath
  rw [if_neg (by simpa using pjoin_ne_base old x)]
  have hpre : (old.data ++ ['/']).isPrefixOf (pjoin old x).data = true := by
    rw [List.isPrefixOf_iff_prefix, pjoin_data]
    exact ⟨x.data, by simp⟩
  rw [if_pos hpre]
  have hdrop : (pjoin old x).data.drop (old.data.length + 1) = x.data := by
    rw [pjoin_data]
    have hsh : old.data ++ '/' :: x.data = (old.data ++ ['/']) ++ x.data := by
      simp
    have hlen : old.data.length + 1 = (old.data ++ ['/']).length := by simp
    rw [hsh, hlen, List.drop_left]
  rw [hdrop]
  exact congrArg String.mk (pjoin_data new x).symm

theorem remapPath_ne_old (old new p : String) (hne : old ≠ new)
    (hnu : underPath new old = false) : remapPath old new p ≠ old := by
  unfold remapPath
  split_ifs with h1 h2
  · exact fun h => hne h.symm
  · intro h
    have hdata : old.data =
        new.data ++ '/' :: p.data.drop (old.data.length + 1) :=
      congrArg String.data h.symm
    have hpre : (new.data ++ ['/']).isPrefixOf old.data = true := by
      rw [List.isPrefixOf_iff_prefix, hdata]
      exact ⟨p.data.drop (old.data.length + 1), by simp⟩
    unfold underPath at hnu
    rw [Bool.or_eq_false_iff] at hnu
    rw [hpre] at hnu
    exact absurd hnu.2 (by simp)
  · intro h
    rw [h] at h1
    exact h1 (beq_self_eq_true old)

theorem remapPath_eq_pjoin_new (old new p x : String)
    (hfresh : underPath new p = false)
    (h : remapPath old new p = pjoin new x) : p = pjoin old x := by
  unfold remapPath at h
  split_ifs at h with h1 h2
  · exact absurd h.symm (pjoin_ne_base new x)
  · rcases List.isPrefixOf_iff_prefix.mp h2 with ⟨t, ht⟩
    have hdrop : p.data.drop (old.data.length + 1) = t := by
      have hlen : old.data.length + 1 = (old.data ++ ['/']).length := by simp
      rw [← ht, hlen, List.drop_left]
    rw [hdrop] at h
    have hdat : new.data ++ '/' :: t = (pjoin new x).data := by
      rw [← h]
    rw [pjoin_data] at hdat
    have ht2 : t = x.data := by
      have h3 := List.append_cancel_left hdat
      simpa using h3
    have hp : p.data = (pjoin old x).data := by
      rw [pjoin_data, ← ht, ht2]
      simp
    exact congrArg String.mk hp
  · exfalso
    rw [h] at hfresh
    unfold underPath at hfresh
    rw [Bool.or_eq_false_iff] at hfresh
    have hpre : (new.data ++ ['/']).isPrefixOf (pjoin new x).data = true := by
      rw [List.isPrefixOf_iff_prefix, pjoin_data]
      exact ⟨x.data, by simp⟩
    rw [hpre] at hfresh
    exact absurd hfresh.2 (by simp)

theorem alookup_remap_none {α : Type} (old new : String)
    (hne : old ≠ new) (hnu : underPath new old = false)
    (l : List (String × α)) (f : String × α → α) :
    alookup (l.map fun kv => (remapPath old new kv.1, f kv)) old = none := by
  unfold alookup
  have hfind : (l.map fun kv => (remapPath old new kv.1, f kv)).find?
      (fun kv => kv.1 == old) = none := by
    rw [List.find?_eq_none]
    intro x hx
    rcases List.mem_map.mp hx with ⟨kv, _, rfl⟩
    simpa using remapPath_ne_old old new kv.1 hne hnu
  rw [hfind]
  rfl

theorem isdir_elim (fs : FS) (p : String) (h : fs.isdir p = true) :
    ∃ kv ∈ fs.dirs, kv.1 = p := by
  unfold FS.isdir alookup at h
  cases hfind : List.find? (fun kv => kv.1 == p) fs.dirs with
  | none => rw [hfind] at h; simp at h
  | some kv =>
      exact ⟨kv, List.mem_of_find?_eq_some hfind,
        by simpa using List.find?_some hfind⟩

theorem alookup_remap_some {α : Type} (old new : String)
    (l : List (String × α)) (f : String × α → α)
    (hex : ∃ kv ∈ l, kv.1 = old) :
    (alookup (l.map fun kv => (remapPath old new kv.1, f kv)) new).isSome =
      true := by
  unfold alookup
  have hfind : (List.find? (fun kv => kv.1 == new)
      (l.map fun kv => (remapPath old new kv.1, f kv))).isSome = true := by
    rw [List.find?_isSome]
    rcases hex with ⟨kv, hmem, hkey⟩
    refine ⟨(remapPath old new kv.1, f kv), List.mem_map_of_mem _ hmem, ?_⟩
    rw [hkey, remapPath_old]
    simp
  cases hf2 : List.find? (fun kv => kv.1 == new)
      (l.map fun kv => (remapPath old new kv.1, f kv)) with
  | none => rw [hf2] at hfind; simp at hfind
  | some kv => rfl

theorem alookup_move_at {α : Type} (old new x : String)
    (l : List (String × α))
    (hfresh : ∀ kv ∈ l, underPath new kv.1 = false) :
    alookup (l.map fun kv => (remapPath old new kv.1, kv.2)) (pjoin new x) =
      alookup l (pjoin old x) := by
  induction l with
  | nil => rfl
  | cons kv t ih =>
      have hind := ih fun kv' h => hfresh kv' (List.mem_cons_of_mem _ h)
      rcases kv with ⟨k, v⟩
      rw [List.map_cons, alookup_cons, alookup_cons]
      rcases em (k = pjoin old x) with rfl | hkx
      · rw [remapPath_pjoin, if_pos (beq_self_eq_true _),
          if_pos (beq_self_eq_true _)]
      · have hne1 : (remapPath old new k == pjoin new x) = false := by
          refine beq_eq_false_iff_ne.mpr fun h => ?_
          exact hkx (remapPath_eq_pjoin_new old new k x
            (hfresh (k, v) (List.mem_cons_self _ _)) h)
        have hne2 : (k == pjoin old x) = false := beq_eq_false_iff_ne.mpr hkx
        rw [hne1, hne2]
        simp only [Bool.false_eq_true, if_false]
        exact hind

theorem makedirs_of_isdir (fs : FS) (p : String) (h : fs.isdir p = true) :
    fs.makedirs p = fs := by
  unfold FS.makedirs
  rw [if_pos h]

theorem setMeta_dirs (fs : FS) (p : String) (m : Meta) :
    (fs.setMeta p m).dirs = fs.dirs := rfl

theorem isdir_def (fs : FS) (p : String) :
    fs.isdir p = (alookup fs.dirs p).isSome := rfl

theorem move_isdir_old (fs : FS) (old new : String) (hne : old ≠ new)
    (hnu : underPath new old = false) :
    (fs.move old new).isdir old = false := by
  rw [isdir_def]
  unfold FS.move
  rw [alookup_remap_none old new hne hnu]
  rfl

theorem move_isdir_new (fs : FS) (old new : String)
    (hold : fs.isdir old = true) :
    (fs.move old new).isdir new = true := by
  rw [isdir_def]
  unfold FS.move
  exact alookup_remap_some old new fs.dirs _ (isdir_elim fs old hold)

theorem makedirs_isdir (fs : FS) (p q : String) (hq : q ≠ p) :
    (fs.makedirs p).isdir q = fs.isdir q := by
  unfold FS.makedirs
  split_ifs with h
  · rfl
  · rw [isdir_def, isdir_def, alookup_cons]
    have hpq : (p == q) = false := beq_eq_false_iff_ne.mpr fun h' => hq h'.symm
    rw [hpq]
    simp only [Bool.false_eq_true, if_false]
    rcases em (q = dirnameOf p) with rfl | hqd
    · rw [alookup_adjust_eq]
      cases halk : alookup fs.dirs (dirnameOf p) <;> rfl
    · rw [alookup_adjust_ne _ _ _ _ hqd]

theorem rename_success_shape (fs : FS) (old parent name now : String)
    (hold : fs.isdir old = true) (hparent : fs.isdir parent = true)
    (hnew : fs.isdir (pjoin parent name) = false) :
    (rename_old_dir_to_new fs old parent name false true now).1 =
      some (pjoin parent name) ∧
    ((rename_old_dir_to_new fs old parent name false true now).2).dirs =
      (fs.move old (pjoin parent name)).dirs := by
  unfold rename_old_dir_to_new
  rw [hold, makedirs_of_isdir fs parent hparent]
  simp only [Bool.not_true, Bool.false_eq_true, if_false, hnew,
    Bool.not_false, if_true]
  constructor
  · split_ifs <;> rfl
  · split_ifs <;> rfl

/-! ### C2: migration idempotence -/

/-- C2 counterexample: after a successful migration, invoking
`rename_old_dir_to_new` again with the same legacy source and target does
not return the destination path — the source no longer exists, so the
second call returns the failure signal `none`. -/
theorem C2_counterexample :
    (rename_old_dir_to_new fsMig "download/kw_old/2013_01_01丨T丨1"
        "download/kw_stripping" "2013_01_01丨T丨1丨aaaa1111" false true
        "t1").1 =
      some "download/kw_stripping/2013_01_01丨T丨1丨aaaa1111" ∧
    (rename_old_dir_to_new
        (rename_old_dir_to_new fsMig "download/kw_old/2013_01_01丨T丨1"
          "download/kw_stripping" "2013_01_01丨T丨1丨aaaa1111" false true
          "t1").2
        "download/kw_old/2013_01_01丨T丨1" "download/kw_stripping"
        "2013_01_01丨T丨1丨aaaa1111" false true "t2").1 = none :=
  ⟨by decide, by decide⟩

/-- C2 amended: migration never overwrites an existing destination (an
existing target directory is returned untouched), and a repeated
invocation after a successful move is a filesystem no-op — but it returns
`none` (the source is gone), not the existing destination path. The
destination remains a directory after the first call. -/
theorem C2_amended_migration_idempotence (fs : FS)
    (old parent name now now' : String)
    (hold : fs.isdir old = true)
    (hparent : fs.isdir parent = true)
    (hnew : fs.isdir (pjoin parent name) = false)
    (hne : old ≠ pjoin parent name)
    (hnu : underPath (pjoin parent name) old = false) :
    (rename_old_dir_to_new fs old parent name false true now).1 =
      some (pjoin parent name) ∧
    ((rename_old_dir_to_new fs old parent name false true now).2).isdir
      (pjoin parent name) = true ∧
    rename_old_dir_to_new
        (rename_old_dir_to_new fs old parent name false true now).2
        old parent name false true now' =
      (none, (rename_old_dir_to_new fs old parent name false true now).2) ∧
    (∀ fs' : FS, fs'.isdir old = true →
      fs'.isdir (pjoin parent name) = true →
      rename_old_dir_to_new fs' old parent name false true now' =
        (some (pjoin parent name), fs'.makedirs parent)) := by
  obtain ⟨h1, hdirs2⟩ := rename_success_shape fs old parent name now hold
    hparent hnew
  have holdr2 :
      ((rename_old_dir_to_new fs old parent name false true now).2).isdir
        old = false := by
    rw [isdir_def, congrArg (fun l => alookup l old) hdirs2]
    show (fs.move old (pjoin parent name)).isdir old = false
    exact move_isdir_old fs old _ hne hnu
  refine ⟨h1, ?_, ?_, ?_⟩
  · rw [isdir_def, congrArg (fun l => alookup l (pjoin parent name)) hdirs2]
    show (fs.move old (pjoin parent name)).isdir (pjoin parent name) = true
    exact move_isdir_new fs old _ hold
  · generalize hg :
      (rename_old_dir_to_new fs old parent name false true now).2 = fsr
      at holdr2 ⊢
    unfold rename_old_dir_to_new
    rw [holdr2]
    simp
  · intro fs' h1' h2'
    unfold rename_old_dir_to_new
    rw [h1']
    have h3 : (fs'.makedirs parent).isdir (pjoin parent name) = true := by
      rw [makedirs_isdir fs' parent _ (pjoin_ne_base parent name)]
      exact h2'
    simp only [Bool.not_true, Bool.false_eq_true, if_false, h3, if_true]

theorem C2_amended_migration_idempotence_witness :
    (rename_old_dir_to_new fsMig "download/kw_old/2013_01_01丨T丨1"
        "download/kw_stripping" "2013_01_01丨T丨1丨aaaa1111" false true
        "t1").1 =
      some "download/kw_stripping/2013_01_01丨T丨1丨aaaa1111" :=
  (C2_amended_migration_idempotence fsMig "download/kw_old/2013_01_01丨T丨1"
    "download/kw_stripping" "2013_01_01丨T丨1丨aaaa1111" "t1" "t2"
    (by decide) (by decide) (by decide) (by decide) (by decide)).1

theorem metaAt_def (fs : FS) (p : String) :
    fs.metaAt p = alookup fs.metas p := rfl

theorem setMeta_metaAt_self (fs : FS) (p : String) (m : Meta) :
    (fs.setMeta p m).metaAt p = some m := by
  rw [metaAt_def]
  unfold FS.setMeta
  rw [alookup_cons, if_pos (beq_self_eq_true p)]

theorem migrationUpdate_fields (m : Meta) (h now : String) :
    (m.migrationUpdate h now).hash = some h ∧
      (m.migrationUpdate h now).download_time = some now := by
  unfold Meta.migrationUpdate
  dsimp only
  split_ifs <;> exact ⟨rfl, rfl⟩

theorem move_isfile_at (fs : FS) (old new x : String)
    (hfresh : ∀ kv ∈ fs.files, underPath new kv.1 = false) :
    (fs.move old new).isfile (pjoin new x) = fs.isfile (pjoin old x) := by
  rw [isfile_eq, isfile_eq]
  unfold FS.move
  rw [alookup_move_at old new x fs.files hfresh]

theorem move_metaAt_at (fs : FS) (old new x : String)
    (hfresh : ∀ kv ∈ fs.metas, underPath new kv.1 = false) :
    (fs.move old new).metaAt (pjoin new x) = fs.metaAt (pjoin old x) := by
  rw [metaAt_def, metaAt_def]
  unfold FS.move
  rw [alookup_move_at old new x fs.metas hfresh]

theorem rename_move_eq (fs : FS) (old parent name now : String)
    (hold : fs.isdir old = true) (hparent : fs.isdir parent = true)
    (hnew : fs.isdir (pjoin parent name) = false) :
    rename_old_dir_to_new fs old parent name false true now =
      (if (fs.move old (pjoin parent name)).isfile
          (pjoin (pjoin parent name) "meta.json") then
        (if (strSplitOnChar '丨' name).length ≥ 4 &&
            !((strSplitOnChar '丨' name).getLastD "").isEmpty then
          (some (pjoin parent name),
            (fs.move old (pjoin parent name)).setMeta
              (pjoin (pjoin parent name) "meta.json")
              ((((fs.move old (pjoin parent name)).metaAt
                  (pjoin (pjoin parent name) "meta.json")).getD
                {}).migrationUpdate
                ((strSplitOnChar '丨' name).getLastD "") now))
        else (some (pjoin parent name), fs.move old (pjoin parent name)))
      else (some (pjoin parent name), fs.move old (pjoin parent name))) := by
  unfold rename_old_dir_to_new
  rw [hold, makedirs_of_isdir fs parent hparent]
  simp only [Bool.not_true, Bool.false_eq_true, if_false, hnew,
    Bool.not_false, if_true]

/-! ### C7: metadata update on migration -/

/-- C7 counterexample: a successful migration to the special-case
3-segment canonical name moves the directory but leaves its `meta.json`
untouched — no content hash is added and the download timestamp is not
refreshed. -/
theorem C7_counterexample :
    (rename_old_dir_to_new fsMig2 "download/kw_old/2013_01_01丨T丨1"
        "download/kw_stripping" "aaaa1111丨T丨1" false true
        "2025-01-01 00:00:00").1 =
      some "download/kw_stripping/aaaa1111丨T丨1" ∧
    (rename_old_dir_to_new fsMig2 "download/kw_old/2013_01_01丨T丨1"
        "download/kw_stripping" "aaaa1111丨T丨1" false true
        "2025-01-01 00:00:00").2.metaAt
        "download/kw_stripping/aaaa1111丨T丨1/meta.json" =
      some { title := some "T", download_time := some "2001-01-01 00:00:00" } :=
  ⟨by decide, by decide⟩

/-- C7 amended: when a successful migration moves a legacy directory that
contains a `meta.json` to a canonical name of 4 or more segments (with a
non-empty last segment), the record is rewritten to carry the name's last
segment as `hash` and the current time as `download_time`. For a target
name of fewer than 4 segments — including the 3-segment special canonical
form — the moved record is left untouched. -/
theorem C7_amended_migration_meta (fs : FS) (old parent name now : String)
    (hold : fs.isdir old = true) (hparent : fs.isdir parent = true)
    (hnew : fs.isdir (pjoin parent name) = false)
    (hfresh : fs.noEntriesUnder (pjoin parent name))
    (hmeta : fs.isfile (pjoin old "meta.json") = true)
    (hseg : (strSplitOnChar '丨' name).length ≥ 4)
    (hlast : ((strSplitOnChar '丨' name).getLastD "").isEmpty = false) :
    ((rename_old_dir_to_new fs old parent name false true now).1 =
        some (pjoin parent name) ∧
      ∃ m : Meta,
        (rename_old_dir_to_new fs old parent name false true now).2.metaAt
            (pjoin (pjoin parent name) "meta.json") = some m ∧
          m.hash = some ((strSplitOnChar '丨' name).getLastD "") ∧
          m.download_time = some now) ∧
    (∀ name' : String, (strSplitOnChar '丨' name').length < 4 →
      fs.isdir (pjoin parent name') = false →
      fs.noEntriesUnder (pjoin parent name') →
      (rename_old_dir_to_new fs old parent name' false true now).1 =
          some (pjoin parent name') ∧
        (rename_old_dir_to_new fs old parent name' false true now).2.metaAt
            (pjoin (pjoin parent name') "meta.json") =
          fs.metaAt (pjoin old "meta.json")) := by
  constructor
  · rw [rename_move_eq fs old parent name now hold hparent hnew]
    have hfile2 : (fs.move old (pjoin parent name)).isfile
        (pjoin (pjoin parent name) "meta.json") = true := by
      rw [move_isfile_at fs old _ _ hfresh.2.1]
      exact hmeta
    have hcond : ((strSplitOnChar '丨' name).length ≥ 4 &&
        !((strSplitOnChar '丨' name).getLastD "").isEmpty) = true := by
      rw [hlast]
      simp [hseg]
    rw [if_pos hfile2, if_pos hcond]
    refine ⟨rfl, _, setMeta_metaAt_self .., ?_⟩
    exact migrationUpdate_fields _ _ now
  · intro name' hlen hnew' hfresh'
    rw [rename_move_eq fs old parent name' now hold hparent hnew']
    have hcond' : ((strSplitOnChar '丨' name').length ≥ 4 &&
        !((strSplitOnChar '丨' name').getLastD "").isEmpty) = false := by
      have hdec : decide ((strSplitOnChar '丨' name').length ≥ 4) = false :=
        decide_eq_false (by omega)
      rw [hdec]
      simp
    have hmv : (fs.move old (pjoin parent name')).metaAt
        (pjoin (pjoin parent name') "meta.json") =
        fs.metaAt (pjoin old "meta.json") :=
      move_metaAt_at fs old _ _ hfresh'.2.2.2
    rw [hcond']
    simp only [Bool.false_eq_true, if_false]
    split_ifs with hfile'
    · exact ⟨rfl, hmv⟩
    · exact ⟨rfl, hmv⟩

theorem C7_amended_migration_meta_witness :
    ((strSplitOnChar '丨' "2013_01_01丨T丨1丨aaaa1111").getLastD "") =
      "aaaa1111" ∧
    ∃ m : Meta,
      (rename_old_dir_to_new fsMig2 "download/kw_old/2013_01_01丨T丨1"
          "download/kw_stripping" "2013_01_01丨T丨1丨aaaa1111" false true
          "2025-01-01 00:00:00").2.metaAt
          (pjoin (pjoin "download/kw_stripping" "2013_01_01丨T丨1丨aaaa1111")
            "meta.json") = some m ∧
        m.hash =
          some ((strSplitOnChar '丨' "2013_01_01丨T丨1丨aaaa1111").getLastD
            "") ∧
        m.download_time = some "2025-01-01 00:00:00" :=
  ⟨by decide,
    (C7_amended_migration_meta fsMig2 "download/kw_old/2013_01_01丨T丨1"
      "download/kw_stripping" "2013_01_01丨T丨1丨aaaa1111"
      "2025-01-01 00:00:00" (by decide) (by decide) (by decide)
      ⟨by decide, by decide, by decide, by decide⟩ (by decide) (by decide)
      (by decide)).1.2⟩

/-! ### C1, C3: per-item resolution of legacy directories -/

/-- C1: when the directory lookup resolves the item to an existing
legacy-named (3-segment) directory whose completion count has reached the
expected total, `process_item` classifies it as done: it attempts exactly
one migration of that directory to the canonical name under the base
download directory and initiates no image or video download (and writes
no metadata) — in particular all downloading is skipped when the
migration succeeds. -/
theorem C1_legacy_complete_skips_downloads (fs : FS) (it : Item)
    (imgCount : Nat) (hasVideo : Bool) (parsedTotal : Nat)
    (slug now : String) (moveOk : Bool) (dlImgs dlVid : FS → FS)
    (legacy : String)
    (hurl : (it.detail_url == "") = false)
    (hpt : 0 < parsedTotal)
    (hfind : find_existing_work_dir fs
      (make_folder_name it.date it.title parsedTotal slug
        (it.date == "")).1 = some legacy)
    (hsep : (basenameOf legacy).data.contains '丨' = true)
    (hseg : (strSplitOnChar '丨' (basenameOf legacy)).length = 3)
    (hdone : parsedTotal ≤
      count_finished_files fs legacy + count_missing_links fs legacy) :
    (process_item fs it true imgCount hasVideo parsedTotal slug moveOk now
        dlImgs dlVid).1 =
      [Act.migrateAttempt legacy BASE_DOWNLOAD_DIR
        (make_folder_name it.date it.title parsedTotal slug
          (it.date == "")).1
        (rename_old_dir_to_new fs legacy BASE_DOWNLOAD_DIR
          (make_folder_name it.date it.title parsedTotal slug
            (it.date == "")).1 RENAME_DRY_RUN moveOk now).1] ∧
    ∀ d : String,
      Act.downloadImages d ∉
        (process_item fs it true imgCount hasVideo parsedTotal slug moveOk
          now dlImgs dlVid).1 ∧
      Act.downloadVideo d ∉
        (process_item fs it true imgCount hasVideo parsedTotal slug moveOk
          now dlImgs dlVid).1 := by
  have hmain : (process_item fs it true imgCount hasVideo parsedTotal slug
      moveOk now dlImgs dlVid).1 =
      [Act.migrateAttempt legacy BASE_DOWNLOAD_DIR
        (make_folder_name it.date it.title parsedTotal slug
          (it.date == "")).1
        (rename_old_dir_to_new fs legacy BASE_DOWNLOAD_DIR
          (make_folder_name it.date it.title parsedTotal slug
            (it.date == "")).1 RENAME_DRY_RUN moveOk now).1] := by
    unfold process_item
    rw [hurl]
    simp only [Bool.false_eq_true, if_false, Bool.not_true]
    rw [if_pos hpt, if_neg (by omega : ¬parsedTotal = 0)]
    rw [hfind]
    unfold processDownloadPhase
    dsimp only
    rw [if_pos hdone, if_pos hsep, if_pos hseg]
  refine ⟨hmain, fun d => ?_⟩
  rw [hmain]
  constructor <;> simp

theorem C1_legacy_complete_skips_downloads_witness :
    (process_item fsLegacyDone itemT true 0 false 1 "t-slug" true "t" id
        id).1 =
      [Act.migrateAttempt "download/kw_old/2013_01_01丨T丨1"
        BASE_DOWNLOAD_DIR
        (make_folder_name itemT.date itemT.title 1 "t-slug"
          (itemT.date == "")).1
        (rename_old_dir_to_new fsLegacyDone
          "download/kw_old/2013_01_01丨T丨1" BASE_DOWNLOAD_DIR
          (make_folder_name itemT.date itemT.title 1 "t-slug"
            (itemT.date == "")).1 RENAME_DRY_RUN true "t").1] :=
  (C1_legacy_complete_skips_downloads fsLegacyDone itemT 0 false 1 "t-slug"
    "t" true id id "download/kw_old/2013_01_01丨T丨1" (by decide) (by decide)
    (by decide) (by decide) (by decide) (by decide)).1

/-- C3: when the directory lookup resolves the item to an existing
legacy-named directory whose completion count is below the expected
total, `process_item` reuses that directory as the working directory: the
download actions target the legacy directory itself (no sibling canonical
directory is used), and any migration attempt occurs only after the
download actions, followed by the metadata write. -/
theorem C3_legacy_partial_reused (fs : FS) (it : Item) (imgCount : Nat)
    (hasVideo : Bool) (parsedTotal : Nat) (slug now : String)
    (moveOk : Bool) (dlImgs dlVid : FS → FS) (legacy : String)
    (hurl : (it.detail_url == "") = false)
    (hpt : 0 < parsedTotal)
    (hfind : find_existing_work_dir fs
      (make_folder_name it.date it.title parsedTotal slug
        (it.date == "")).1 = some legacy)
    (hnotdone : count_finished_files fs legacy + count_missing_links fs
      legacy < parsedTotal) :
    ∃ (finalDir : String) (migActs : List Act),
      (process_item fs it true imgCount hasVideo parsedTotal slug moveOk
          now dlImgs dlVid).1 =
        (if imgCount ≠ 0 then [Act.downloadImages legacy] else []) ++
          (if hasVideo then [Act.downloadVideo legacy] else []) ++
          migActs ++ [Act.writeMeta finalDir] ∧
      (migActs = [] ∨ ∃ r : Option String, migActs =
        [Act.migrateAttempt legacy BASE_DOWNLOAD_DIR
          (make_folder_name it.date it.title parsedTotal slug
            (it.date == "")).1 r]) := by
  unfold process_item
  rw [hurl]
  simp only [Bool.false_eq_true, if_false, Bool.not_true]
  rw [if_pos hpt, if_neg (by omega : ¬parsedTotal = 0)]
  rw [hfind]
  unfold processDownloadPhase
  dsimp only
  rw [if_neg (by omega : ¬parsedTotal ≤
    count_finished_files fs legacy + count_missing_links fs legacy)]
  rcases em (parsedTotal ≤
      count_finished_files
        (if hasVideo = true then dlVid (if imgCount ≠ 0 then dlImgs fs else fs)
         else if imgCount ≠ 0 then dlImgs fs else fs) legacy +
      count_missing_links
        (if hasVideo = true then dlVid (if imgCount ≠ 0 then dlImgs fs else fs)
         else if imgCount ≠ 0 then dlImgs fs else fs) legacy)
    with hstep | hstep
  · rw [if_pos hstep]
    rcases em ((strSplitOnChar '丨' (basenameOf legacy)).length = 3)
      with hsg | hsg
    · rw [if_pos hsg]
      cases hrr : (rename_old_dir_to_new
          (if hasVideo = true then
            dlVid (if imgCount ≠ 0 then dlImgs fs else fs)
          else if imgCount ≠ 0 then dlImgs fs else fs)
          legacy BASE_DOWNLOAD_DIR
          (make_folder_name it.date it.title parsedTotal slug
            (it.date == "")).1 RENAME_DRY_RUN moveOk now).1 with
      | none =>
          exact ⟨legacy, [Act.migrateAttempt legacy BASE_DOWNLOAD_DIR
            (make_folder_name it.date it.title parsedTotal slug
              (it.date == "")).1 none], rfl, Or.inr ⟨none, rfl⟩⟩
      | some nd =>
          exact ⟨nd, [Act.migrateAttempt legacy BASE_DOWNLOAD_DIR
            (make_folder_name it.date it.title parsedTotal slug
              (it.date == "")).1 (some nd)], rfl, Or.inr ⟨some nd, rfl⟩⟩
    · rw [if_neg hsg]
      exact ⟨legacy, [], by simp, Or.inl rfl⟩
  · rw [if_neg hstep]
    exact ⟨legacy, [], by simp, Or.inl rfl⟩

theorem C3_legacy_partial_reused_witness :
    (process_item fsLegacyPartial itemT true 2 false 1 "t-slug" true "t" id
        id).1 =
      [Act.downloadImages "download/kw_old/2013_01_01丨T丨1",
        Act.writeMeta "download/kw_old/2013_01_01丨T丨1"] := by
  rcases C3_legacy_partial_reused fsLegacyPartial itemT 2 false 1 "t-slug"
      "t" true id id "download/kw_old/2013_01_01丨T丨1" (by decide)
      (by decide) (by decide) (by decide) with ⟨fd, mig, heq, hcases⟩
  rw [heq]
  rcases hcases with rfl | ⟨r, rfl⟩
  · have hfd : fd = "download/kw_old/2013_01_01丨T丨1" := by
      have h2 := heq
      rw [show (process_item fsLegacyPartial itemT true 2 false 1 "t-slug"
        true "t" id id).1 =
        [Act.downloadImages "download/kw_old/2013_01_01丨T丨1",
          Act.writeMeta "download/kw_old/2013_01_01丨T丨1"] from by decide]
        at h2
      simp at h2
      exact h2.symm
    rw [hfd]
    decide
  · have h2 := heq
    rw [show (process_item fsLegacyPartial itemT true 2 false 1 "t-slug"
      true "t" id id).1 =
      [Act.downloadImages "download/kw_old/2013_01_01丨T丨1",
        Act.writeMeta "download/kw_old/2013_01_01丨T丨1"] from by decide]
      at h2
    simp at h2

/-! ### C9: fetch failures during collect-then-process -/

theorem collectGeneralGo_attempted (f : Nat → Option (List Item))
    (s l : Nat) : ∀ pages : List Nat,
    (collectGeneralGo f s l none pages).2 = pages := by
  intro pages
  induction pages with
  | nil => rfl
  | cons q rest ih =>
      unfold collectGeneralGo
      simp only [Option.isSome_none, Bool.and_false, Bool.false_and,
        Bool.false_eq_true, if_false]
      cases f q <;> simp [ih]

theorem collectGeneralGo_congr (f f' : Nat → Option (List Item))
    (s l : Nat) : ∀ pages : List Nat, (∀ q ∈ pages, f q = f' q) →
    collectGeneralGo f s l none pages = collectGeneralGo f' s l none pages := by
  intro pages
  induction pages with
  | nil => intro _; rfl
  | cons q rest ih =>
      intro h
      unfold collectGeneralGo
      rw [h q (List.mem_cons_self q rest),
        ih fun q' hq' => h q' (List.mem_cons_of_mem _ hq')]

theorem collectGeneralGo_splice (f : Nat → Option (List Item))
    (s l p : Nat) (its : List Item) (hfp : f p = none) :
    ∀ pages : List Nat, pages.Nodup →
    ∃ pre post,
      (collectGeneralGo f s l none pages).1 = pre ++ post ∧
      (collectGeneralGo (fun q => if q = p then some its else f q) s l none
          pages).1 =
        pre ++ (if p ∈ pages then its.reverse else []) ++ post := by
  intro pages
  induction pages with
  | nil => exact fun _ => ⟨[], [], rfl, by simp [collectGeneralGo]⟩
  | cons q rest ih =>
      intro hnd
      have hcontrib : ∀ g : Nat → Option (List Item),
          (collectGeneralGo g s l none (q :: rest)).1 =
            (match g q with
             | none => []
             | some page_items => page_items.reverse) ++
              (collectGeneralGo g s l none rest).1 := by
        intro g
        conv_lhs => unfold collectGeneralGo
        simp only [Option.isSome_none, Bool.and_false, Bool.false_and,
          Bool.false_eq_true, if_false]
        cases g q <;> simp
      rcases ih (List.Nodup.of_cons hnd) with ⟨pre, post, h1, h2⟩
      rcases em (q = p) with rfl | hqp
      · have hnotin : q ∉ rest := (List.nodup_cons.mp hnd).1
        have hagree : collectGeneralGo
            (fun q' => if q' = q then some its else f q') s l none rest =
            collectGeneralGo f s l none rest := by
          refine collectGeneralGo_congr _ f s l rest fun q' hq' => ?_
          exact if_neg fun (h : q' = q) => hnotin (h ▸ hq')
        refine ⟨[], (collectGeneralGo f s l none rest).1, ?_, ?_⟩
        · rw [hcontrib f, hfp]
        · rw [hcontrib _]
          have hq : (if q = q then some its else f q) = some its := if_pos rfl
          rw [hq, hagree, if_pos (List.mem_cons_self q rest)]
          simp
      · have hupdq : (if q = p then some its else f q) = f q := if_neg hqp
        refine ⟨(match f q with
          | none => []
          | some page_items => page_items.reverse) ++ pre, post, ?_, ?_⟩
        · rw [hcontrib f, h1]
          simp
        · rw [hcontrib _, hupdq, h2]
          rcases em (p ∈ rest) with hpin | hpin
          · rw [if_pos hpin, if_pos (List.mem_cons_of_mem _ hpin)]
            simp
          · have hnm : p ∉ q :: rest := by
              intro hmem
              rcases List.mem_cons.mp hmem with hh | hmem2
              · exact hqp hh.symm
              · exact hpin hmem2
            rw [if_neg hpin, if_neg hnm]
            simp

/-- C9 counterexample: in collect-then-process mode under the unbounded
(special) discovery strategy, a fetch failure terminates the collection
loop rather than skipping the page: with page 2 failing, page 3 is never
attempted and its item is never collected, while the same pages with
page 2 fetchable yield it. -/
theorem C9_counterexample :
    crawlSpecialCollect specialPagesFailAt2 10 1 = ([itemA], [1, 2]) ∧
    crawlSpecialCollect specialPagesAllOk 10 1 =
      ([itemA, itemB], [1, 2, 3]) :=
  ⟨by decide, by decide⟩

/-- C9 amended: in collect-then-process mode, the bounded (general)
discovery strategy is failure-tolerant — every page of the descending
range is attempted regardless of failures, and turning one failed page
into a success only inserts that page's items, leaving the rest of the
collection unchanged. The unbounded (special) strategy instead terminates
its collection loop at the first fetch failure, as unbounded streaming
does. -/
theorem C9_amended_collect_failure_handling :
    (∀ (fetch : Nat → Option (List Item)) (start_page last_page : Nat),
      (collect_items_for_general_mode fetch start_page last_page none).2 =
        descRange start_page) ∧
    (∀ (fetch : Nat → Option (List Item)) (start_page last_page p : Nat)
      (its : List Item), fetch p = none →
      ∃ pre post,
        (collect_items_for_general_mode fetch start_page last_page
            none).1 = pre ++ post ∧
        (collect_items_for_general_mode
            (fun q => if q = p then some its else fetch q) start_page
            last_page none).1 =
          pre ++ (if p ∈ descRange start_page then its.reverse else []) ++
            post) ∧
    (∀ (fetch : Nat → Option (List Item × Option Nat)) (fuel page : Nat),
      fetch page = none →
      crawlSpecialCollect fetch (fuel + 1) page = ([], [page])) := by
  refine ⟨?_, ?_, ?_⟩
  · intro fetch start_page last_page
    exact collectGeneralGo_attempted fetch start_page last_page
      (descRange start_page)
  · intro fetch start_page last_page p its hfp
    refine collectGeneralGo_splice fetch start_page last_page p its hfp
      (descRange start_page) ?_
    unfold descRange
    refine List.Nodup.map (fun a b h => by omega) ?_
    exact (List.nodup_reverse).mpr (List.nodup_range start_page)
  · intro fetch fuel page hfail
    unfold crawlSpecialCollect
    rw [hfail]

theorem C9_amended_collect_failure_handling_witness :
    crawlSpecialCollect specialPagesFailAt2 9 2 = ([], [2]) ∧
    (collect_items_for_general_mode (fun _ => none) 3 3 none).2 =
      descRange 3 :=
  ⟨C9_amended_collect_failure_handling.2.2 specialPagesFailAt2 8 2
      (by decide),
    C9_amended_collect_failure_handling.1 (fun _ => none) 3 3⟩

theorem C6_amended_folder_shape_witness :
    (make_folder_name "2013_01_01" "T" 3 "s" false).1.data.count '丨' = 3 := by
  have h := C6_amended_folder_shape "2013_01_01" "T" 3 "s" false (by decide)
    (by decide)
  simpa using h.2

theorem C4_completion_count_witness :
    count_finished_files fsLegacyDone "nosuch" +
        count_missing_links fsLegacyDone "nosuch" = 0 ∧
    count_finished_files
          (fsLegacyDone.addFile "download/kw_old/2013_01_01丨T丨1" "zero.jpg"
            0 []) "download/kw_old/2013_01_01丨T丨1" +
        count_missing_links
          (fsLegacyDone.addFile "download/kw_old/2013_01_01丨T丨1" "zero.jpg"
            0 []) "download/kw_old/2013_01_01丨T丨1" =
      count_finished_files fsLegacyDone "download/kw_old/2013_01_01丨T丨1" +
        count_missing_links fsLegacyDone "download/kw_old/2013_01_01丨T丨1" :=
  ⟨(C4_completion_count fsLegacyDone "nosuch").2.1 (by unfold FS.wf; decide)
      (by decide),
    (C4_completion_count fsLegacyDone "download/kw_old/2013_01_01丨T丨1").2.2
      "zero.jpg" (by decide) (by decide)⟩
